import Mathlib

/-!
Verification of the wireviz-doc harness-document model and parser.

The Python source (pydantic models in `models/*.py`, the YAML parser in
`parser.py` and the BOM generator in `generators/bom.py`) is embedded
shallowly.  Python strings are modelled as lists of Unicode code points
(`PyStr := List Nat`); the string operations used by the source
(`str.strip`, `str.upper`, `str.lower`, `str.split`, `int(...)`,
`str.isalpha`, `str.isdigit`) are defined below restricted to their ASCII
behaviour, which is the only behaviour the verified properties exercise.
Python floats are modelled as rationals; every arithmetic fact proved about
them involves values and operations on which IEEE-754 double arithmetic is
exact.  Python dictionaries are modelled as insertion-ordered association
lists with first-match lookup and update-in-place semantics, matching
CPython dict ordering.  A Python function that may raise is modelled as a
function into `Res` (an `Except`-like sum with decidable equality).
-/

namespace WirevizDoc

/-- Result type for fallible code; `error` carries the exception message. -/
inductive Res (ε : Type) (α : Type) where
  | ok (val : α)
  | error (err : ε)
deriving DecidableEq, Repr

namespace Res

def isOk {ε α : Type} : Res ε α → Bool
  | .ok _ => true
  | .error _ => false

def bind {ε α β : Type} : Res ε α → (α → Res ε β) → Res ε β
  | .ok a, f => f a
  | .error e, _ => .error e

def map {ε α β : Type} (f : α → β) : Res ε α → Res ε β
  | .ok a => .ok (f a)
  | .error e => .error e

instance {ε : Type} : Monad (Res ε) where
  pure := Res.ok
  bind := Res.bind

end Res

/-- Python strings, as lists of Unicode code points. -/
abbrev PyStr : Type := List Nat

/-- Converts a Lean string literal to its code-point list; used to write
concrete `PyStr` values readably. -/
def pystr (s : String) : PyStr := s.data.map Char.toNat

/-- Python `str.isspace` on a single ASCII code point (the characters
removed by `str.strip()`). -/
def isPySpace (c : Nat) : Bool :=
  c == 32 || c == 9 || c == 10 || c == 13 || c == 11 || c == 12

/-- Python `str.strip()`: removes leading and trailing whitespace. -/
def pyStrip (s : PyStr) : PyStr :=
  (((s : List Nat).dropWhile isPySpace).reverse.dropWhile isPySpace).reverse

/-- Uppercases one ASCII code point, as Python `str.upper` does on ASCII. -/
def upperCh (c : Nat) : Nat := if 97 ≤ c ∧ c ≤ 122 then c - 32 else c

/-- Lowercases one ASCII code point, as Python `str.lower` does on ASCII. -/
def lowerCh (c : Nat) : Nat := if 65 ≤ c ∧ c ≤ 90 then c + 32 else c

/-- Python `str.upper()` (ASCII fragment). -/
def pyUpper (s : PyStr) : PyStr := (s : List Nat).map upperCh

/-- Python `str.lower()` (ASCII fragment). -/
def pyLower (s : PyStr) : PyStr := (s : List Nat).map lowerCh

/-- ASCII decimal digit. -/
def isDigitCh (c : Nat) : Bool := 48 ≤ c && c ≤ 57

/-- ASCII uppercase letter. -/
def isUpperCh (c : Nat) : Bool := 65 ≤ c && c ≤ 90

/-- Python `str.isalpha` on one code point (ASCII fragment). -/
def isAlphaCh (c : Nat) : Bool := (65 ≤ c && c ≤ 90) || (97 ≤ c && c ≤ 122)

/-- Python `str.split(sep)` for a one-character separator: splits on every
occurrence, keeping empty pieces. -/
def pySplitOn (sep : Nat) : List Nat → List PyStr
  | [] => [([] : List Nat)]
  | c :: rest =>
      if c = sep then ([] : List Nat) :: pySplitOn sep rest
      else
        match pySplitOn sep rest with
        | [] => [([c] : List Nat)]
        | h :: t => ((c :: (h : List Nat)) :: t)

/-- Python `int(s)` on an already-stripped string: an optional sign followed
by at least one ASCII digit.  (CPython additionally accepts underscore
digit grouping and non-ASCII digits; the source never relies on either.) -/
def parseIntPy (s : PyStr) : Option Int :=
  let digits := fun (ds : List Nat) =>
    if ds = [] ∨ ¬ ds.all isDigitCh then (none : Option Nat)
    else some (ds.foldl (fun acc d => acc * 10 + (d - 48)) 0)
  match s with
  | 43 :: rest => (digits rest).map fun n => (n : Int)
  | 45 :: rest => (digits rest).map fun n => -(n : Int)
  | ds => (digits ds).map fun n => (n : Int)

/-- Decimal digits of a natural number, as code points (helper, fuel-based). -/
def natDecimalAux : Nat → Nat → List Nat
  | 0, _ => []
  | fuel + 1, n =>
      if n < 10 then [48 + n]
      else natDecimalAux fuel (n / 10) ++ [48 + n % 10]

/-- Python `str(n)` for a natural number. -/
def natDecimal (n : Nat) : PyStr := natDecimalAux (n + 1) n

/-- Python `str(i)` for an integer. -/
def intDecimal (i : Int) : PyStr :=
  if i < 0 then (45 :: natDecimal (-i).toNat : List Nat) else natDecimal i.toNat

/-- Code-point lexicographic strict order, as Python `<` on strings. -/
def pyStrLt : List Nat → List Nat → Bool
  | [], [] => false
  | [], _ :: _ => true
  | _ :: _, [] => false
  | x :: xs, y :: ys => if x = y then pyStrLt xs ys else decide (x < y)

/-- Code-point lexicographic order, reflexive version. -/
def pyStrLe (a b : PyStr) : Bool := (a : List Nat) == b || pyStrLt a b

/-- Python truthiness of an optional string (`None` and `""` are falsy). -/
def pyTruthy : Option PyStr → Bool
  | none => false
  | some s => !((s : List Nat) == [])

/-- Python `a or b` over optional strings, with `None`/`""` falsy. -/
def pyOrOpt (a b : Option PyStr) : Option PyStr :=
  if pyTruthy a then a else b

/-- Association-list model of a Python dict: first-match lookup. -/
def dictGet? {V : Type} (m : List (PyStr × V)) (k : PyStr) : Option V :=
  match m with
  | [] => none
  | (k0, v0) :: rest => if k0 = k then some v0 else dictGet? rest k

/-- Python `d[k] = v`: updates in place if the key exists (keeping its
insertion position), appends otherwise. -/
def dictSet {V : Type} (m : List (PyStr × V)) (k : PyStr) (v : V) :
    List (PyStr × V) :=
  match m with
  | [] => [(k, v)]
  | (k0, v0) :: rest =>
      if k0 = k then (k, v) :: rest else (k0, v0) :: dictSet rest k v

/-- Python `", ".join(parts)`. -/
def joinComma : List PyStr → PyStr
  | [] => ([] : List Nat)
  | [s] => s
  | s :: rest => s ++ pystr ", " ++ joinComma rest

/-- Simultaneous traversal of three lists, truncating to the shortest, as
Python `zip(a, b, c)`. -/
def zip3 {α β γ : Type} : List α → List β → List γ → List (α × β × γ)
  | a :: as_, b :: bs, c :: cs => (a, b, c) :: zip3 as_ bs cs
  | _, _, _ => []

/-!
ColorSpec (`models/base.py`).  The pydantic model is frozen with
`str_strip_whitespace`; the `normalize_color_case` before-validator strips
and uppercases `base_color` and `stripe_color`.  The constructor is
modelled by `ColorSpec.make`, which applies exactly those normalisations.
-/

/-- Wire-color specification: verbatim display string, base color and
optional stripe color. -/
structure ColorSpec where
  display_color : PyStr
  base_color : PyStr
  stripe_color : Option PyStr
deriving DecidableEq, Repr

namespace ColorSpec

/-- Pydantic construction of a `ColorSpec`: `str_strip_whitespace` strips
every string field, and `normalize_color_case` uppercases the base and
stripe colors. -/
def make (display base : PyStr) (stripe : Option PyStr) : ColorSpec :=
  { display_color := pyStrip display
    base_color := pyUpper (pyStrip base)
    stripe_color := stripe.map fun s => pyUpper (pyStrip s) }

/-- The fixed 20-entry standard color-code set `STANDARD_COLOR_CODES`. -/
def STANDARD_COLOR_CODES : List PyStr :=
  [pystr "BK", pystr "BN", pystr "RD", pystr "OG", pystr "YE",
   pystr "GN", pystr "BU", pystr "BL", pystr "VT", pystr "PK",
   pystr "GY", pystr "WH", pystr "TQ", pystr "SR", pystr "GD",
   pystr "CL", pystr "OL", pystr "CR", pystr "TN", pystr "SL"]

/-- The regex `^[A-Z]{2}\d+$` of the numbered format (two uppercase
letters followed by one or more digits). -/
def matchesNumbered (s : PyStr) : Bool :=
  match (s : List Nat) with
  | a :: b :: rest =>
      isUpperCh a && isUpperCh b && !(rest == []) && rest.all isDigitCh
  | _ => false

/-- Branch structure of `ColorSpec.parse` after input normalisation; the
argument is the stripped, uppercased color string and every branch
returns a value (formats 1-4 and the fallback). -/
def parseNormalized (n : PyStr) : ColorSpec :=
  -- Format 1: hyphenated (split on "-"; parts[0] / parts[1]).
  if 45 ∈ (n : List Nat) then
    let parts := pySplitOn 45 n
    let base := parts.headD ([] : List Nat)
    let stripe := if parts.length > 1 then some (parts.getD 1 ([] : List Nat)) else none
    make n base stripe
  -- Format 2: numbered, `^[A-Z]{2}\d+$`; digit suffix discarded.
  else if matchesNumbered n then
    make n ((n : List Nat).take 2) none
  -- Format 3: concatenated 4-character format, both halves standard codes.
  else if (n : List Nat).length = 4 ∧ (n : List Nat).take 2 ∈ STANDARD_COLOR_CODES
      ∧ (n : List Nat).drop 2 ∈ STANDARD_COLOR_CODES then
    make n ((n : List Nat).take 2) (some ((n : List Nat).drop 2))
  -- Format 4: any 2-3 letter code as a single color.
  else if 2 ≤ (n : List Nat).length ∧ (n : List Nat).length ≤ 3
      ∧ (n : List Nat).all isAlphaCh then
    make n n none
  -- Fallback: whole string as base color.
  else
    make n n none

/-- Translation of `ColorSpec.parse`: rejects the empty string (before and
after normalisation), then dispatches on the normalised string. -/
def parse (color_str : PyStr) : Res PyStr ColorSpec :=
  if (color_str : List Nat) = [] then
    .error (pystr "Invalid color specification")
  else
    let n := pyUpper (pyStrip color_str)
    if (n : List Nat) = [] then
      .error (pystr "Color specification cannot be empty")
    else
      .ok (parseNormalized n)

/-- Python `str(colorspec)` returns the display color. -/
def toStr (c : ColorSpec) : PyStr := c.display_color

end ColorSpec

/-!
Quantity (`models/base.py`).  `value` is a float, modelled as a rational;
`unit` is a non-empty string (stripped by the constructor).
-/

/-- Value-with-unit pair. -/
structure Quantity where
  value : ℚ
  unit : PyStr
deriving DecidableEq, Repr

namespace Quantity

/-- Pydantic construction: the unit is stripped and must be non-empty. -/
def make (value : ℚ) (unit : PyStr) : Res PyStr Quantity :=
  if (pyStrip unit : List Nat) = [] then .error (pystr "Unit cannot be empty")
  else .ok { value := value, unit := pyStrip unit }

/-- The fixed `length_to_meters` conversion table of `to_base_unit`. -/
def length_to_meters : List (PyStr × ℚ) :=
  [(pystr "m", 1), (pystr "cm", 1/100), (pystr "mm", 1/1000),
   (pystr "ft", 3048/10000), (pystr "in", 254/10000)]

/-- Translation of `Quantity.to_base_unit`: converts within the fixed
length table (via meters), accepts identical units after lowercasing, and
raises on every other combination.  The `Quantity(...)` constructions
inside the source always receive a non-empty unit, so they are modelled
by the plain record constructor (with the constructor's strip). -/
def to_base_unit (q : Quantity) (target_unit : PyStr) : Res PyStr Quantity :=
  let current_unit := pyLower q.unit
  let target_unit_lower := pyLower target_unit
  match dictGet? length_to_meters current_unit, dictGet? length_to_meters target_unit_lower with
  | some fCur, some fTgt =>
      .ok { value := q.value * fCur / fTgt, unit := pyStrip target_unit }
  | _, _ =>
      if current_unit = target_unit_lower then
        .ok { value := q.value, unit := pyStrip target_unit }
      else
        .error (pystr "Cannot convert: conversion not supported")

end Quantity

example : ColorSpec.parse (pystr "BU-WH")
    = .ok ⟨pystr "BU-WH", pystr "BU", some (pystr "WH")⟩ := by decide
example : ColorSpec.parse (pystr "BUWH")
    = .ok ⟨pystr "BUWH", pystr "BU", some (pystr "WH")⟩ := by decide
example : ColorSpec.parse (pystr "BK")
    = .ok ⟨pystr "BK", pystr "BK", none⟩ := by decide
example : ColorSpec.parse (pystr "bl1")
    = .ok ⟨pystr "BL1", pystr "BL", none⟩ := by decide
example : (Quantity.to_base_unit ⟨1, pystr "m"⟩ (pystr "mm"))
    = .ok ⟨(1 : ℚ) * 1 / (1/1000), pystr "mm"⟩ := by rfl
example : ((1 : ℚ) * 1 / (1/1000)) = 1000 := by norm_num
example : (Quantity.to_base_unit ⟨1, pystr "PCS"⟩ (pystr "pcs")).isOk = true := by decide
example : (Quantity.to_base_unit ⟨1, pystr "m"⟩ (pystr "pcs")).isOk = false := by decide

/-!
Connection model (`models/connections.py`).  Pin values are ints or string
labels.  `normalize_pin` is translated exactly as written: note that for a
numeric string below 1 the source raises `ValueError` *inside* its own
`try` block, so the exception is caught by the `except ValueError` branch
and the string is returned as a label.
-/

/-- A pin designator: integer pin number or string label. -/
inductive PinVal where
  | int (n : Int)
  | str (s : PyStr)
deriving DecidableEq, Repr

/-- Translation of `Connection.normalize_pin`.  Integer inputs below 1 are
rejected; string inputs are stripped, rejected when empty, and converted
to an integer when `int(v)` succeeds — where the `raise` for a converted
value below 1 is swallowed by the surrounding `except ValueError`, which
returns the string unchanged. -/
def normalize_pin : PinVal → Res PyStr PinVal
  | .int n =>
      if n < 1 then .error (pystr "Pin numbers must be positive (1-based)")
      else .ok (.int n)
  | .str s =>
      let s := pyStrip s
      if (s : List Nat) = [] then .error (pystr "Pin label cannot be empty")
      else
        match parseIntPy s with
        | some int_val =>
            if int_val < 1 then .ok (.str s)  -- the raise is caught: kept as label
            else .ok (.int int_val)
        | none => .ok (.str s)

/-- A single point-to-point wire assignment.  The source class has no
`pair_group` field; pydantic's default `extra="ignore"` silently drops the
`pair_group` keyword the parser passes. -/
structure Connection where
  from_connector : PyStr
  from_pin : PinVal
  cable : PyStr
  core : Int
  to_connector : PyStr
  to_pin : PinVal
  notes : Option PyStr
  signal_name : Option PyStr
  wire_label : Option PyStr
deriving DecidableEq, Repr

/-- The `strip_optional_strings` validator shared by several models:
optional strings are stripped, and empty results become `None`. -/
def stripOptional (v : Option PyStr) : Option PyStr :=
  match v with
  | none => none
  | some s => if (pyStrip s : List Nat) = [] then none else some (pyStrip s)

/-- Pydantic construction of a `Connection`: ID fields must be non-empty
after stripping, pins go through `normalize_pin`, `core` must be `≥ 0`,
and optional strings are stripped-to-`None`. -/
def Connection.make (from_connector : PyStr) (from_pin : PinVal) (cable : PyStr)
    (core : Int) (to_connector : PyStr) (to_pin : PinVal)
    (notes signal_name wire_label : Option PyStr) : Res PyStr Connection :=
  if (pyStrip from_connector : List Nat) = [] then
    .error (pystr "from_connector cannot be empty")
  else if (pyStrip cable : List Nat) = [] then
    .error (pystr "cable cannot be empty")
  else if (pyStrip to_connector : List Nat) = [] then
    .error (pystr "to_connector cannot be empty")
  else if core < 0 then
    .error (pystr "core must be greater than or equal to 0")
  else do
    let fp ← normalize_pin from_pin
    let tp ← normalize_pin to_pin
    .ok { from_connector := pyStrip from_connector
          from_pin := fp
          cable := pyStrip cable
          core := core
          to_connector := pyStrip to_connector
          to_pin := tp
          notes := stripOptional notes
          signal_name := stripOptional signal_name
          wire_label := stripOptional wire_label }

/-!
Part models (`models/parts.py`).
-/

/-- Alternate/substitute part; URL must start with `http://` or
`https://` when present. -/
structure AlternatePart where
  manufacturer : PyStr
  mpn : PyStr
  vendor_sku : Option PyStr
  url : Option PyStr
deriving DecidableEq, Repr

/-- Tests whether `pre` is a prefix of `s` (Python `str.startswith`). -/
def pyStartsWith (s pre : PyStr) : Bool :=
  (s : List Nat).take (pre : List Nat).length == pre

/-- Pydantic construction of an `AlternatePart`. -/
def AlternatePart.make (manufacturer mpn : PyStr) (vendor_sku url : Option PyStr) :
    Res PyStr AlternatePart :=
  if (pyStrip manufacturer : List Nat) = [] then
    .error (pystr "manufacturer cannot be empty")
  else if (pyStrip mpn : List Nat) = [] then
    .error (pystr "mpn cannot be empty")
  else
    match stripOptional url with
    | some u =>
        if pyStartsWith u (pystr "http://") || pyStartsWith u (pystr "https://") then
          .ok ⟨pyStrip manufacturer, pyStrip mpn, vendor_sku.map pyStrip, some u⟩
        else .error (pystr "Invalid URL format")
    | none => .ok ⟨pyStrip manufacturer, pyStrip mpn, vendor_sku.map pyStrip, none⟩

/-- Image reference; `src` must be non-empty.  The height-format regex of
`validate_height_format` is not needed by any verified property and the
`height` field is carried through unchecked. -/
structure ImageSpec where
  src : PyStr
  caption : Option PyStr
  height : Option PyStr
deriving DecidableEq, Repr

/-- Pydantic construction of an `ImageSpec`. -/
def ImageSpec.make (src : PyStr) (caption height : Option PyStr) :
    Res PyStr ImageSpec :=
  if (pyStrip src : List Nat) = [] then
    .error (pystr "Image source path cannot be empty")
  else .ok ⟨pyStrip src, caption, height⟩

/-- Character allowed by the Part-ID regex `^[a-zA-Z0-9_.-]+$`. -/
def isIdCh (c : Nat) : Bool :=
  isAlphaCh c || isDigitCh c || c == 95 || c == 45 || c == 46

/-- Physical part: identity, sourcing and substitution data. -/
structure Part where
  id : PyStr
  primary_pn : PyStr
  manufacturer : PyStr
  mpn : PyStr
  description : PyStr
  alternates : List AlternatePart
  fields : List (PyStr × PyStr)
  image : Option ImageSpec
deriving DecidableEq, Repr

/-- Pydantic construction of a `Part`: the five identity strings must be
non-empty after stripping and the ID must match `^[a-zA-Z0-9_.-]+$`. -/
def Part.make (id primary_pn manufacturer mpn description : PyStr)
    (alternates : List AlternatePart) (fields : List (PyStr × PyStr))
    (image : Option ImageSpec) : Res PyStr Part :=
  if (pyStrip id : List Nat) = [] then .error (pystr "id cannot be empty")
  else if (pyStrip primary_pn : List Nat) = [] then
    .error (pystr "primary_pn cannot be empty")
  else if (pyStrip manufacturer : List Nat) = [] then
    .error (pystr "manufacturer cannot be empty")
  else if (pyStrip mpn : List Nat) = [] then
    .error (pystr "mpn cannot be empty")
  else if (pyStrip description : List Nat) = [] then
    .error (pystr "description cannot be empty")
  else if ¬ (pyStrip id : List Nat).all isIdCh then
    .error (pystr "Invalid ID format")
  else
    .ok ⟨pyStrip id, pyStrip primary_pn, pyStrip manufacturer, pyStrip mpn,
         pyStrip description, alternates, fields, image⟩

/-- Accessory type enum; unrecognised strings fall back to `"other"`. -/
def accessoryTypeValues : List PyStr :=
  [pystr "heatshrink", pystr "label_sleeve", pystr "conduit", pystr "braid",
   pystr "tape", pystr "grommet", pystr "clamp", pystr "tie_wrap",
   pystr "ferrule", pystr "boot", pystr "other"]

/-- Accessory: typed supplementary component with an embedded part and a
quantity. -/
structure Accessory where
  type : PyStr
  part : Part
  quantity : Quantity
  location : Option PyStr
  notes : Option PyStr
deriving DecidableEq, Repr

/-!
Component models (`models/components.py`).
-/

/-- Connector type enum values; unrecognised strings fall back to
`"other"` in the parser. -/
def connectorTypeValues : List PyStr :=
  [pystr "rectangular", pystr "circular", pystr "modular",
   pystr "terminal_block", pystr "splice", pystr "blade", pystr "ring",
   pystr "spade", pystr "bullet", pystr "pin_header", pystr "usb",
   pystr "d_sub", pystr "automotive", pystr "wire_to_board",
   pystr "wire_to_wire", pystr "other"]

/-- Shield type enum values. -/
def shieldTypeValues : List PyStr :=
  [pystr "braided", pystr "foil", pystr "spiral", pystr "braided_foil",
   pystr "none"]

/-- A single wire core within a cable.  The parser always constructs cores
with a natural-number index, so `index : Nat` (the pydantic `ge=0` bound
is carried by the type). -/
structure Core where
  index : Nat
  color : ColorSpec
  label : Option PyStr
  pair_group : Option PyStr
  twist_spec : Option PyStr
  gauge : Option PyStr
deriving DecidableEq, Repr

/-- Pydantic construction of a `Core`: the optional string fields are
stripped-to-`None`. -/
def Core.make (index : Nat) (color : ColorSpec)
    (label pair_group twist_spec gauge : Option PyStr) : Core :=
  ⟨index, color, stripOptional label, stripOptional pair_group,
   stripOptional twist_spec, stripOptional gauge⟩

/-- Cable shielding specification. -/
structure ShieldSpec where
  type : PyStr
  coverage : Option ℚ
  drain_wire : Bool
  color : Option ColorSpec
deriving DecidableEq, Repr

/-- Pydantic construction of a `ShieldSpec`: coverage must lie in
`[0, 100]` when present. -/
def ShieldSpec.make (type : PyStr) (coverage : Option ℚ) (drain_wire : Bool)
    (color : Option ColorSpec) : Res PyStr ShieldSpec :=
  match coverage with
  | some c =>
      if 0 ≤ c ∧ c ≤ 100 then .ok ⟨type, some c, drain_wire, color⟩
      else .error (pystr "coverage out of range")
  | none => .ok ⟨type, none, drain_wire, color⟩

/-- Connector component.  The `pins` (detailed `PinDefinition` list) and
`additional_components` fields are never populated by the parser and are
not consulted by any verified property; they are omitted from the
embedding. -/
structure Connector where
  id : PyStr
  primary_pn : PyStr
  manufacturer : PyStr
  mpn : PyStr
  description : PyStr
  type : PyStr
  subtype : Option PyStr
  pincount : Int
  pinlabels : List PyStr
  alternates : List AlternatePart
  fields : List (PyStr × PyStr)
  image : Option ImageSpec
  notes : Option PyStr
deriving DecidableEq, Repr

/-- Pydantic construction of a `Connector`: the five identity strings must
be non-empty after stripping, `pincount ≥ 1`, and a non-empty `pinlabels`
list must have exactly `pincount` entries. -/
def Connector.make (id primary_pn manufacturer mpn description : PyStr)
    (type : PyStr) (subtype : Option PyStr) (pincount : Int)
    (pinlabels : List PyStr) (alternates : List AlternatePart)
    (fields : List (PyStr × PyStr)) (image : Option ImageSpec)
    (notes : Option PyStr) : Res PyStr Connector :=
  if (pyStrip id : List Nat) = [] then .error (pystr "id cannot be empty")
  else if (pyStrip primary_pn : List Nat) = [] then
    .error (pystr "primary_pn cannot be empty")
  else if (pyStrip manufacturer : List Nat) = [] then
    .error (pystr "manufacturer cannot be empty")
  else if (pyStrip mpn : List Nat) = [] then
    .error (pystr "mpn cannot be empty")
  else if (pyStrip description : List Nat) = [] then
    .error (pystr "description cannot be empty")
  else if pincount < 1 then
    .error (pystr "pincount must be greater than or equal to 1")
  else if pinlabels ≠ [] ∧ pinlabels.length ≠ pincount.toNat then
    .error (pystr "pinlabels count must match pincount")
  else
    .ok ⟨pyStrip id, pyStrip primary_pn, pyStrip manufacturer, pyStrip mpn,
         pyStrip description, type, subtype, pincount, pinlabels, alternates,
         fields, image, notes⟩

/-- Cable component.  `length` is a required field of the pydantic model
(`Field(...)`), so every constructed cable carries a `Quantity`.
`additional_components`, `outer_diameter` and `jacket_color` are never
populated by the parser and are omitted. -/
structure Cable where
  id : PyStr
  primary_pn : PyStr
  manufacturer : PyStr
  mpn : PyStr
  description : PyStr
  wirecount : Int
  cores : List Core
  gauge : PyStr
  length : Quantity
  shield : Option ShieldSpec
  alternates : List AlternatePart
  fields : List (PyStr × PyStr)
  image : Option ImageSpec
  notes : Option PyStr
deriving DecidableEq, Repr

/-- Pydantic construction of a `Cable`: the six required strings must be
non-empty after stripping, `wirecount ≥ 1`, a non-empty `cores` list must
have exactly `wirecount` entries, and core indices must be unique and in
`[0, wirecount)`. -/
def Cable.make (id primary_pn manufacturer mpn description : PyStr)
    (wirecount : Int) (cores : List Core) (gauge : PyStr) (length : Quantity)
    (shield : Option ShieldSpec) (alternates : List AlternatePart)
    (fields : List (PyStr × PyStr)) (image : Option ImageSpec)
    (notes : Option PyStr) : Res PyStr Cable :=
  if (pyStrip id : List Nat) = [] then .error (pystr "id cannot be empty")
  else if (pyStrip primary_pn : List Nat) = [] then
    .error (pystr "primary_pn cannot be empty")
  else if (pyStrip manufacturer : List Nat) = [] then
    .error (pystr "manufacturer cannot be empty")
  else if (pyStrip mpn : List Nat) = [] then
    .error (pystr "mpn cannot be empty")
  else if (pyStrip description : List Nat) = [] then
    .error (pystr "description cannot be empty")
  else if (pyStrip gauge : List Nat) = [] then
    .error (pystr "gauge cannot be empty")
  else if wirecount < 1 then
    .error (pystr "wirecount must be greater than or equal to 1")
  else if cores ≠ [] ∧ cores.length ≠ wirecount.toNat then
    .error (pystr "cores count must match wirecount")
  else if ¬ (cores.map Core.index).Nodup then
    .error (pystr "Core indices must be unique")
  else if ¬ (cores.map Core.index).all (fun idx => idx < wirecount.toNat) then
    .error (pystr "Core index out of range")
  else
    .ok ⟨pyStrip id, pyStrip primary_pn, pyStrip manufacturer, pyStrip mpn,
         pyStrip description, wirecount, cores, pyStrip gauge, length, shield,
         alternates, fields, image, notes⟩

/-!
Document model (`models/document.py`).  `DocumentMeta` keeps the four
required identity fields; its optional authorship/drawing fields and the
`parse_date` format interpretation (which retains unparseable strings
verbatim) are not consulted by any verified property, so `date` is carried
as the raw string. -/

/-- Document metadata (required fields). -/
structure DocumentMeta where
  id : PyStr
  title : PyStr
  revision : PyStr
  date : PyStr
deriving DecidableEq, Repr

/-- Pydantic construction of a `DocumentMeta`: `id`, `title` and
`revision` must be non-empty after stripping, and `parse_date` rejects an
empty date string. -/
def DocumentMeta.make (id title revision date : PyStr) : Res PyStr DocumentMeta :=
  if (pyStrip id : List Nat) = [] then .error (pystr "id cannot be empty")
  else if (pyStrip title : List Nat) = [] then
    .error (pystr "title cannot be empty")
  else if (pyStrip revision : List Nat) = [] then
    .error (pystr "revision cannot be empty")
  else if (pyStrip date : List Nat) = [] then
    .error (pystr "Date cannot be empty")
  else .ok ⟨pyStrip id, pyStrip title, pyStrip revision, date⟩

/-- Complete harness document.  `connection_groups`, `splices` and
`bom_extra` are never populated by the parser and are not consulted by
any verified property; they are omitted from the embedding. -/
structure HarnessDocument where
  metadata : DocumentMeta
  parts : List (PyStr × Part)
  connectors : List (PyStr × Connector)
  cables : List (PyStr × Cable)
  connections : List Connection
  accessories : List Accessory
  notes : Option PyStr
deriving DecidableEq, Repr

/-- Violation messages of one connection, exactly as produced by
`HarnessDocument.validate_connection_references` for connection number
`i`. -/
def connectionErrors (connectors : List (PyStr × Connector))
    (cables : List (PyStr × Cable)) (i : Nat) (conn : Connection) : List PyStr :=
  (if (dictGet? connectors conn.from_connector).isNone then
     [pystr "Connection " ++ natDecimal i ++ pystr ": from_connector " ++
       [39] ++ conn.from_connector ++ [39] ++ pystr " not found"]
   else []) ++
  (if (dictGet? connectors conn.to_connector).isNone then
     [pystr "Connection " ++ natDecimal i ++ pystr ": to_connector " ++
       [39] ++ conn.to_connector ++ [39] ++ pystr " not found"]
   else []) ++
  (match dictGet? cables conn.cable with
   | none =>
       [pystr "Connection " ++ natDecimal i ++ pystr ": cable " ++
         [39] ++ conn.cable ++ [39] ++ pystr " not found"]
   | some cable =>
       if conn.core ≥ cable.wirecount then
         [pystr "Connection " ++ natDecimal i ++ pystr ": core index " ++
           intDecimal conn.core ++ pystr " out of range for cable " ++
           [39] ++ conn.cable ++ [39] ++ pystr " with " ++
           intDecimal cable.wirecount ++ pystr " wires"]
       else [])

/-- Accumulates the violation messages of all connections, numbering them
from `i` (the source's `enumerate` loop). -/
def collectConnectionErrors (connectors : List (PyStr × Connector))
    (cables : List (PyStr × Cable)) (i : Nat) :
    List Connection → List PyStr
  | [] => []
  | conn :: rest =>
      connectionErrors connectors cables i conn ++
      collectConnectionErrors connectors cables (i + 1) rest

/-- Translation of `HarnessDocument` construction: the
`validate_connection_references` model validator batches every violation
and raises a single `ValueError` carrying all of them (the source joins
them into one message; the list is kept here). -/
def HarnessDocument.make (metadata : DocumentMeta) (parts : List (PyStr × Part))
    (connectors : List (PyStr × Connector)) (cables : List (PyStr × Cable))
    (connections : List Connection) (accessories : List Accessory)
    (notes : Option PyStr) : Res (List PyStr) HarnessDocument :=
  match collectConnectionErrors connectors cables 0 connections with
  | [] => .ok ⟨metadata, parts, connectors, cables, connections, accessories,
               notes.map pyStrip⟩
  | errs => .error errs

/-!
Parser (`parser.py`).  The raw YAML value is modelled by typed records
mirroring the `dict.get` accesses the source performs; a missing key is
`none`.  The source's `if not isinstance(..., dict): continue` guards are
subsumed by the typing.  Exceptions raised inside the stages propagate to
`parse_harness_yaml`, which wraps them into a `ParserError` carrying the
detail messages; the error type of the whole parse is therefore a list of
messages. -/

/-- Applies `f` to the error of a failed result. -/
def Res.mapError {ε ε' α : Type} (f : ε → ε') : Res ε α → Res ε' α
  | .ok a => .ok a
  | .error e => .error (f e)

/-- Raw alternate-part entry (`alternates` list elements). -/
structure RawAlt where
  manufacturer : Option PyStr
  mpn : Option PyStr
  spn : Option PyStr
  vendor_sku : Option PyStr
  url : Option PyStr
deriving DecidableEq, Repr

/-- Raw image value: either a bare path string or a mapping. -/
inductive RawImage where
  | str (s : PyStr)
  | dict (src : Option PyStr) (caption : Option PyStr) (height : Option PyStr)
deriving DecidableEq, Repr

/-- Translation of `_parse_alternates`. -/
def parseAlternates : List RawAlt → Res PyStr (List AlternatePart)
  | [] => .ok []
  | alt :: rest => do
      let a ← AlternatePart.make (alt.manufacturer.getD []) (alt.mpn.getD [])
        (pyOrOpt alt.spn alt.vendor_sku) alt.url
      let as_ ← parseAlternates rest
      .ok (a :: as_)

/-- Translation of `_parse_image`: `None` stays `None`, a string becomes
`ImageSpec(src=...)`, a mapping is unpacked (the `height` value is kept
when truthy). -/
def parseImage : Option RawImage → Res PyStr (Option ImageSpec)
  | none => .ok none
  | some (.str s) => Res.map some (ImageSpec.make s none none)
  | some (.dict src caption height) =>
      Res.map some (ImageSpec.make (src.getD []) caption
        (if pyTruthy height then height else none))

/-- Raw quantity value: number, string, or `{value, unit}` mapping. -/
inductive RawQty where
  | num (q : ℚ)
  | str (s : PyStr)
  | dict (value : Option ℚ) (unit : Option PyStr)
deriving DecidableEq, Repr

/-- Python `float(s)` for a string of digits and dots (the only shape the
quantity parser can pass): at most one dot and at least one digit. -/
def parseFloatPy (s : PyStr) : Option ℚ :=
  if (s : List Nat) = [] ∨ (s : List Nat).count 46 > 1 ∨ ¬ (s : List Nat).any isDigitCh then
    none
  else
    let ip := (s : List Nat).takeWhile isDigitCh
    let natval : List Nat → Nat := fun ds =>
      ds.foldl (fun acc d => acc * 10 + (d - 48)) 0
    match (s : List Nat).dropWhile isDigitCh with
    | [] => some ((natval ip : ℚ))
    | 46 :: fp => some ((natval ip : ℚ) + (natval fp : ℚ) / ((10 : ℚ) ^ fp.length))
    | _ => none

/-- Translation of `_parse_quantity`. -/
def parseQuantity : RawQty → Res PyStr Quantity
  | .num q => Quantity.make q (pystr "pcs")
  | .str s =>
      let qty_str := pyStrip s
      let i := ((qty_str : List Nat).takeWhile fun c => isDigitCh c || c == 46).length
      if i = 0 then Quantity.make 1 qty_str
      else
        match parseFloatPy ((qty_str : List Nat).take i) with
        | none => .error (pystr "could not convert string to float")
        | some value =>
            let unit := pyStrip ((qty_str : List Nat).drop i)
            Quantity.make value (if (unit : List Nat) = [] then pystr "pcs" else unit)
  | .dict value unit =>
      Quantity.make (value.getD 0) (unit.getD (pystr "pcs"))

/-- Raw `parts` table entry. -/
structure RawPart where
  primary_pn : Option PyStr
  pn : Option PyStr
  manufacturer : Option PyStr
  mpn : Option PyStr
  description : Option PyStr
  alternates : List RawAlt
  fields : List (PyStr × PyStr)
  image : Option RawImage
deriving DecidableEq, Repr

/-- Translation of `_parse_parts`. -/
def parseParts : List (PyStr × RawPart) → Res PyStr (List (PyStr × Part))
  | [] => .ok []
  | (part_id, info) :: rest => do
      let alternates ← parseAlternates info.alternates
      let image ← parseImage info.image
      let part ← Part.make part_id
        (info.primary_pn.getD (info.pn.getD part_id))
        (info.manufacturer.getD []) (info.mpn.getD [])
        (info.description.getD []) alternates info.fields image
      let restParts ← parseParts rest
      .ok (dictSet restParts part_id part)

/-- Python `{**a, **b}`: the base dict updated key-by-key from the
override dict (override wins, insertion position of existing keys kept). -/
def dictMerge (a b : List (PyStr × PyStr)) : List (PyStr × PyStr) :=
  b.foldl (fun m kv => dictSet m kv.1 kv.2) a

/-- Raw connector entry. -/
structure RawConnector where
  pn : Option PyStr
  part : Option PyStr
  manufacturer : Option PyStr
  mpn : Option PyStr
  description : Option PyStr
  fields : List (PyStr × PyStr)
  image : Option RawImage
  alternates : List RawAlt
  type : Option PyStr
  subtype : Option PyStr
  pinlabels : List PyStr
  pincount : Option Int
  notes : Option PyStr
deriving DecidableEq, Repr

/-- Resolution of an entry's part reference: `pn` or `part` key (Python
`or`, so an empty string falls through), looked up in the parts table when
truthy. -/
def resolvePartRef (pn part : Option PyStr) (parts : List (PyStr × Part)) :
    Option Part :=
  let part_ref := pyOrOpt pn part
  if pyTruthy part_ref then dictGet? parts (part_ref.getD []) else none

/-- Translation of the body of `_parse_connectors` for one entry. -/
def parseConnectorEntry (conn_id : PyStr) (conn_info : RawConnector)
    (parts : List (PyStr × Part)) : Res PyStr Connector := do
  let part := resolvePartRef conn_info.pn conn_info.part parts
  let (primary_pn, manufacturer, mpn, description, alternates, image, fields) ←
    match part with
    | some p => do
        let img ← parseImage conn_info.image
        .ok (conn_info.pn.getD p.primary_pn,
             conn_info.manufacturer.getD p.manufacturer,
             conn_info.mpn.getD p.mpn,
             p.description,
             p.alternates,
             img.orElse (fun _ => p.image),
             dictMerge p.fields conn_info.fields)
    | none => do
        let alternates ← parseAlternates conn_info.alternates
        let img ← parseImage conn_info.image
        .ok (conn_info.pn.getD (pystr "PN-" ++ conn_id),
             conn_info.manufacturer.getD (pystr "Unknown"),
             conn_info.mpn.getD [],
             conn_info.description.getD (pystr "Connector " ++ conn_id),
             alternates, img, conn_info.fields)
  let type_str := conn_info.type.getD (pystr "other")
  let conn_type :=
    if pyLower type_str ∈ connectorTypeValues then pyLower type_str
    else pystr "other"
  let subtype_str := conn_info.subtype.getD []
  let pinlabels := conn_info.pinlabels
  let pincount := conn_info.pincount.getD (if pinlabels ≠ [] then (pinlabels.length : Int) else 1)
  Connector.make conn_id primary_pn manufacturer mpn description conn_type
    (some (if (subtype_str : List Nat) = [] then type_str else subtype_str))
    pincount pinlabels alternates fields image conn_info.notes

/-- Translation of `_parse_connectors`. -/
def parseConnectors (data : List (PyStr × RawConnector))
    (parts : List (PyStr × Part)) : Res PyStr (List (PyStr × Connector)) :=
  match data with
  | [] => .ok []
  | (conn_id, info) :: rest => do
      let c ← parseConnectorEntry conn_id info parts
      let restConns ← parseConnectors rest parts
      .ok (dictSet restConns conn_id c)

/-- Raw shield value: boolean or mapping. -/
inductive RawShield where
  | bool (b : Bool)
  | dict (type : Option PyStr) (coverage : Option ℚ) (drain_wire : Option Bool)
deriving DecidableEq, Repr

/-- Raw gauge value: bare integer or string. -/
inductive RawGauge where
  | int (n : Int)
  | str (s : PyStr)
deriving DecidableEq, Repr

/-- Raw cable entry. -/
structure RawCable where
  pn : Option PyStr
  part : Option PyStr
  manufacturer : Option PyStr
  mpn : Option PyStr
  description : Option PyStr
  fields : List (PyStr × PyStr)
  image : Option RawImage
  alternates : List RawAlt
  colors : List PyStr
  wirelabels : List PyStr
  wirecount : Option Int
  length : Option RawQty
  gauge : Option RawGauge
  shield : Option RawShield
  notes : Option PyStr
deriving DecidableEq, Repr

/-- Translation of `_parse_cores_from_wireviz`, indexed by position; the
pair-group heuristic pairs index `i` with `i+1` for even `i` (`total` is
the length of the whole colors list). -/
def parseCoresAux (total : Nat) (wirelabels : List PyStr) (i : Nat) :
    List PyStr → Res PyStr (List Core)
  | [] => .ok []
  | color_str :: rest => do
      let color ← ColorSpec.parse color_str
      let label := wirelabels.get? i
      let pair_group :=
        if i % 2 = 0 ∧ i + 1 < total then some (natDecimal (i / 2 + 1)) else none
      let core := Core.make i color label pair_group none none
      let restCores ← parseCoresAux total wirelabels (i + 1) rest
      .ok (core :: restCores)

/-- Translation of `_parse_cores_from_wireviz`. -/
def parseCoresFromWireviz (colors wirelabels : List PyStr) : Res PyStr (List Core) :=
  parseCoresAux colors.length wirelabels 0 colors

/-- Translation of the body of `_parse_cables` for one entry. -/
def parseCableEntry (cable_id : PyStr) (cable_info : RawCable)
    (parts : List (PyStr × Part)) : Res PyStr Cable := do
  let part := resolvePartRef cable_info.pn cable_info.part parts
  let (primary_pn, manufacturer, mpn, description, alternates, image, fields) ←
    match part with
    | some p => do
        let img ← parseImage cable_info.image
        .ok (cable_info.pn.getD p.primary_pn,
             cable_info.manufacturer.getD p.manufacturer,
             cable_info.mpn.getD p.mpn,
             p.description,
             p.alternates,
             img.orElse (fun _ => p.image),
             dictMerge p.fields cable_info.fields)
    | none => do
        let alternates ← parseAlternates cable_info.alternates
        let img ← parseImage cable_info.image
        .ok (cable_info.pn.getD (pystr "PN-" ++ cable_id),
             cable_info.manufacturer.getD (pystr "Unknown"),
             cable_info.mpn.getD [],
             cable_info.description.getD (pystr "Cable " ++ cable_id),
             alternates, img, cable_info.fields)
  let cores ← parseCoresFromWireviz cable_info.colors cable_info.wirelabels
  let wirecount := cable_info.wirecount.getD
    (if cores ≠ [] then (cores.length : Int) else 1)
  let length ← parseQuantity
    (cable_info.length.getD (.dict (some 0) (some (pystr "mm"))))
  let gauge :=
    match cable_info.gauge with
    | some (.int n) => intDecimal n ++ pystr " AWG"
    | some (.str s) => s
    | none => (dictGet? fields (pystr "gauge_awg")).getD (pystr "22 AWG")
  let shield ←
    match cable_info.shield with
    | none => pure none
    | some (.bool _) => pure none
    | some (.dict t coverage dw) =>
        let shield_type_str := t.getD (pystr "braided")
        let st :=
          if pyLower shield_type_str ∈ shieldTypeValues then pyLower shield_type_str
          else pystr "braided"
        Res.map some (ShieldSpec.make st coverage (dw.getD false) none)
  Cable.make cable_id primary_pn manufacturer mpn description wirecount cores
    gauge length shield alternates fields image cable_info.notes

/-- Translation of `_parse_cables`. -/
def parseCables (data : List (PyStr × RawCable))
    (parts : List (PyStr × Part)) : Res PyStr (List (PyStr × Cable)) :=
  match data with
  | [] => .ok []
  | (cable_id, info) :: rest => do
      let c ← parseCableEntry cable_id info parts
      let restCables ← parseCables rest parts
      .ok (dictSet restCables cable_id c)

/-- Raw `connection_info` list entry.  (The source also reads a `pair`
key and passes it as `pair_group`, which the `Connection` model silently
drops; it is omitted here.) -/
structure RawConnInfo where
  from_ : Option PyStr
  pin : Option PinVal
  cable : Option PyStr
  core : Option Int
  to_ : Option PyStr
  notes : Option PyStr
  label : Option PyStr
deriving DecidableEq, Repr

/-- Translation of `_parse_connection_info`: the 1-based `core` (default
1) is decremented when positive, the single `pin` value (default 1) is
used for both ends, and `label` populates both `signal_name` and
`wire_label`. -/
def parseConnectionInfo : List RawConnInfo → Res PyStr (List Connection)
  | [] => .ok []
  | conn :: rest => do
      let core0 := conn.core.getD 1
      let core := if core0 > 0 then core0 - 1 else core0
      let c ← Connection.make (conn.from_.getD []) (conn.pin.getD (.int 1))
        (conn.cable.getD []) core (conn.to_.getD []) (conn.pin.getD (.int 1))
        conn.notes conn.label conn.label
      let cs ← parseConnectionInfo rest
      .ok (c :: cs)

/-- Raw pin list of a WireViz connection-group element: a scalar is
wrapped into a one-element list by the source. -/
inductive RawPins where
  | one (p : PinVal)
  | many (ps : List PinVal)
deriving DecidableEq, Repr

/-- The list form of a raw pin value (`pins if isinstance(pins, list)
else [pins]`). -/
def RawPins.toList : RawPins → List PinVal
  | .one p => [p]
  | .many ps => ps

/-- One element of a WireViz connection group: a mapping from
connector/cable names to pin/core lists (iterated in insertion order). -/
abbrev RawElem := List (PyStr × RawPins)

/-- A WireViz connection group: a list of elements. -/
abbrev RawGroup := List RawElem

/-- Fold of `_derive_connections_from_wireviz` over `elements[1:]`: a key
found in the cables table becomes the cable side, any other key the "to"
side (later occurrences overwrite earlier ones). -/
def classifyElements (cables : List (PyStr × Cable)) :
    List (PyStr × List PinVal) →
    Option PyStr × List PinVal × Option PyStr × List PinVal →
    Option PyStr × List PinVal × Option PyStr × List PinVal
  | [], acc => acc
  | (key, pins) :: rest, (cable_id, cores, to_conn, to_pins) =>
      if (dictGet? cables key).isSome then
        classifyElements cables rest (some key, pins, to_conn, to_pins)
      else
        classifyElements cables rest (cable_id, cores, some key, pins)

/-- Wire-label lookup of `_derive_connections_from_wireviz`: when the
cable has cores, the label is read by list position `core - 1` (cores in
the YAML are 1-based). -/
def wirevizCoreLabel (cable : Option Cable) (core : Int) : Option PyStr :=
  match cable with
  | some cb =>
      if cb.cores ≠ [] then
        let core_idx := core - 1
        if 0 ≤ core_idx ∧ core_idx < (cb.cores.length : Int) then
          (cb.cores.get? core_idx.toNat).bind Core.label
        else none
      else none
  | none => none

/-- Builds the connections of one group from the zipped pin/core/pin
triples.  A non-integer core value makes the source's `core - 1` raise
`TypeError`, which aborts the whole parse.  The core's `pair_group` is
also read by the source and passed to `Connection(...)`, where the model
drops it (no such field). -/
def buildGroupConnections (from_conn : PyStr) (cable_id : PyStr)
    (cable : Option Cable) (to_conn : PyStr) :
    List (PinVal × PinVal × PinVal) → Res PyStr (List Connection)
  | [] => .ok []
  | (from_pin, coreV, to_pin) :: rest => do
      let core ←
        match coreV with
        | .int c => Res.ok c
        | .str _ => .error (pystr "unsupported operand type for core arithmetic")
      let label := wirevizCoreLabel cable core
      let c ← Connection.make from_conn from_pin cable_id (core - 1)
        to_conn to_pin none none label
      let cs ← buildGroupConnections from_conn cable_id cable to_conn rest
      .ok (c :: cs)

/-- Translation of the body of `_derive_connections_from_wireviz` for one
group: groups with fewer than two elements are skipped, the first element
is the "from" side, the remaining elements are classified against the
cables table, and groups without a truthy cable and "to" side are
skipped. -/
def deriveGroupConnections (cables : List (PyStr × Cable)) (conn_group : RawGroup) :
    Res PyStr (List Connection) :=
  if conn_group.length < 2 then .ok []
  else
    let elements := conn_group.flatMap fun elem =>
      elem.map fun kp => (kp.1, kp.2.toList)
    if elements.length < 2 then .ok []
    else
      match elements with
      | [] => .ok []
      | (from_conn, from_pins) :: restElems =>
          let (cable_id, cores, to_conn, to_pins) :=
            classifyElements cables restElems (none, [], none, [])
          if ¬ (pyTruthy cable_id ∧ pyTruthy to_conn) then .ok []
          else
            let cableKey := cable_id.getD []
            let cable := dictGet? cables cableKey
            buildGroupConnections from_conn cableKey cable (to_conn.getD [])
              (zip3 from_pins cores to_pins)

/-- Translation of `_derive_connections_from_wireviz`. -/
def deriveConnectionsFromWireviz (connections_data : List RawGroup)
    (cables : List (PyStr × Cable)) : Res PyStr (List Connection) :=
  match connections_data with
  | [] => .ok []
  | g :: rest => do
      let cs ← deriveGroupConnections cables g
      let csRest ← deriveConnectionsFromWireviz rest cables
      .ok (cs ++ csRest)

/-- Raw inline part mapping under an accessory's `part` key. -/
structure RawInlinePart where
  id : Option PyStr
  pn : Option PyStr
  primary_pn : Option PyStr
  manufacturer : Option PyStr
  mpn : Option PyStr
  description : Option PyStr
deriving DecidableEq, Repr

/-- Raw accessory `part` reference: library-id string or inline mapping. -/
inductive RawPartRef where
  | ref (s : PyStr)
  | inline (p : RawInlinePart)
deriving DecidableEq, Repr

/-- Raw accessory entry. -/
structure RawAccessory where
  id : Option PyStr
  type : Option PyStr
  part : Option RawPartRef
  description : Option PyStr
  qty : Option RawQty
  quantity : Option RawQty
  qty_unit : Option PyStr
  location : Option PyStr
  notes : Option PyStr
deriving DecidableEq, Repr

/-- Raw `accessories` section: dict-of-id or list form. -/
inductive RawAccessories where
  | dict (l : List (PyStr × RawAccessory))
  | list (l : List RawAccessory)
deriving DecidableEq, Repr

/-- Translation of the body of `_parse_accessories` for one entry;
`count` is `len(result)` so far (used for the generated `ACC-n` ids). -/
def parseAccessoryEntry (acc_info : RawAccessory) (count : Nat)
    (parts : List (PyStr × Part)) : Res PyStr Accessory := do
  let type_str := pyLower (acc_info.type.getD (pystr "other"))
  let acc_type :=
    if type_str ∈ accessoryTypeValues then type_str else pystr "other"
  let part ←
    match acc_info.part with
    | some (.ref s) =>
        match dictGet? parts s with
        | some p => Res.ok p
        | none =>
            -- Unresolved string reference: falls to the minimal-part branch,
            -- whose empty manufacturer always fails Part validation.
            Part.make (acc_info.id.getD (pystr "ACC-" ++ natDecimal count))
              s [] [] (acc_info.description.getD []) [] [] none
    | some (.inline d) =>
        Part.make (d.id.getD (pystr "ACC-" ++ natDecimal count))
          (d.pn.getD (d.primary_pn.getD [])) (d.manufacturer.getD (pystr "Unknown"))
          (d.mpn.getD []) (d.description.getD []) [] [] none
    | none =>
        Part.make (acc_info.id.getD (pystr "ACC-" ++ natDecimal count))
          [] [] [] (acc_info.description.getD []) [] [] none
  let qty ← parseQuantity (acc_info.qty.getD (acc_info.quantity.getD (.num 1)))
  let qty ←
    match acc_info.qty_unit with
    | some u => Quantity.make qty.value u
    | none => Res.ok qty
  .ok ⟨acc_type, part, qty, stripOptional acc_info.location,
       stripOptional acc_info.notes⟩

/-- Translation of `_parse_accessories` (list already normalised). -/
def parseAccessoryList (parts : List (PyStr × Part)) (count : Nat) :
    List RawAccessory → Res PyStr (List Accessory)
  | [] => .ok []
  | acc :: rest => do
      let a ← parseAccessoryEntry acc count parts
      let as_ ← parseAccessoryList parts (count + 1) rest
      .ok (a :: as_)

/-- Translation of `_parse_accessories`: the dict form is converted to a
list of entries `{"id": k, **v}` (an explicit `id` in the body wins). -/
def parseAccessories (accessories_data : RawAccessories)
    (parts : List (PyStr × Part)) : Res PyStr (List Accessory) :=
  let items :=
    match accessories_data with
    | .dict l => l.map fun kv => { kv.2 with id := kv.2.id.orElse fun _ => some kv.1 }
    | .list l => l
  parseAccessoryList parts 0 items

/-- Raw `metadata` section (the fields the verified properties need; the
remaining optional authorship and drawing fields are passed through to
`DocumentMeta` unvalidated and are omitted). -/
structure RawMeta where
  id : Option PyStr
  title : Option PyStr
  revision : Option PyStr
  date : Option PyStr
deriving DecidableEq, Repr

/-- Translation of `_parse_metadata`. -/
def parseMetadata (m : RawMeta) : Res PyStr DocumentMeta :=
  DocumentMeta.make (m.id.getD (pystr "UNKNOWN"))
    (m.title.getD (pystr "Untitled Harness"))
    (m.revision.getD (pystr "A")) (m.date.getD [])

/-- Raw top-level document: the result of YAML deserialisation, with each
parsed section in its typed form.  `connection_info` and `connections`
are `Option` so key presence drives the strategy choice. -/
structure RawDoc where
  metadata : Option RawMeta
  parts : List (PyStr × RawPart)
  connectors : List (PyStr × RawConnector)
  cables : List (PyStr × RawCable)
  connection_info : Option (List RawConnInfo)
  connections : Option (List RawGroup)
  accessories : RawAccessories
  notes : Option PyStr
deriving DecidableEq, Repr

/-- Translation of `parse_harness_yaml` after YAML loading: metadata is
required; parts, connectors, cables are parsed in order; connections come
from `connection_info` when that key is present, else are derived from
`connections`, else are empty; accessories are parsed; and the assembled
`HarnessDocument` runs the referential-integrity batch check.  A failing
stage propagates as a `ParserError` whose detail list carries the
validation messages. -/
def parseHarnessData (raw_data : RawDoc) : Res (List PyStr) HarnessDocument :=
  match raw_data.metadata with
  | none => .error [pystr "Missing required " ++ [39] ++ pystr "metadata" ++
      [39] ++ pystr " section"]
  | some rawMeta =>
    (do
      let metadata ← parseMetadata rawMeta
      let parts ← parseParts raw_data.parts
      let connectors ← parseConnectors raw_data.connectors parts
      let cables ← parseCables raw_data.cables parts
      let connections ←
        match raw_data.connection_info with
        | some ci => parseConnectionInfo ci
        | none =>
            match raw_data.connections with
            | some conns => deriveConnectionsFromWireviz conns cables
            | none => Res.ok []
      let accessories ← parseAccessories raw_data.accessories parts
      Res.ok (metadata, parts, connectors, cables, connections, accessories)
      : Res PyStr _).mapError (fun e => [e]) |>.bind
      fun (metadata, parts, connectors, cables, connections, accessories) =>
        HarnessDocument.make metadata parts connectors cables connections
          accessories raw_data.notes

/-!
BOM extraction (`generators/bom.py`, `_extract_bom_items`).  The
`items_by_pn` accumulator dict is an insertion-ordered association list;
`sorted(items_by_pn.items())` is modelled by an insertion sort under the
code-point lexicographic order on the (unique) keys, which produces the
same list as any stable sort.
-/

/-- Python `d[k] = f(d[k])` for an existing key. -/
def dictModify {V : Type} (m : List (PyStr × V)) (k : PyStr) (f : V → V) :
    List (PyStr × V) :=
  match m with
  | [] => []
  | (k0, v0) :: rest =>
      if k0 = k then (k0, f v0) :: rest else (k0, v0) :: dictModify rest k f

/-- Accumulator value of `items_by_pn` for one part number. -/
structure BOMEntry where
  quantity : ℚ
  unit : PyStr
  manufacturer : PyStr
  mpn : PyStr
  description : PyStr
  alternates : List PyStr
  category : PyStr
  references : List PyStr
deriving DecidableEq, Repr

/-- One line item of the extracted BOM. -/
structure BOMItem where
  item_number : Nat
  quantity : ℚ
  unit : PyStr
  part_number : PyStr
  manufacturer : PyStr
  mpn : PyStr
  description : PyStr
  alternates : List PyStr
  category : PyStr
  reference : PyStr
deriving DecidableEq, Repr

/-- The `f"{alt.manufacturer} {alt.mpn}"` rendering of an alternate. -/
def altStr (alt : AlternatePart) : PyStr := alt.manufacturer ++ [32] ++ alt.mpn

/-- Connector pass of `_extract_bom_items`: each connector contributes one
unit and appends its reference designator. -/
def processConnectors (m : List (PyStr × BOMEntry)) :
    List (PyStr × Connector) → List (PyStr × BOMEntry)
  | [] => m
  | (conn_id, c) :: rest =>
      let pn := c.primary_pn
      let m :=
        if (dictGet? m pn).isNone then
          dictSet m pn ⟨0, pystr "pcs", c.manufacturer, c.mpn, c.description,
            c.alternates.map altStr, pystr "connector", []⟩
        else m
      let m := dictModify m pn fun e =>
        { e with quantity := e.quantity + 1, references := e.references ++ [conn_id] }
      processConnectors m rest

/-- Cable pass of `_extract_bom_items`: each cable contributes its
`length.value` and appends its reference designator.  (`length` is a
required field of the `Cable` model and a pydantic model instance is
always truthy, so the source's `else: quantity += 1` fallback cannot
run.) -/
def processCables (m : List (PyStr × BOMEntry)) :
    List (PyStr × Cable) → List (PyStr × BOMEntry)
  | [] => m
  | (cable_id, c) :: rest =>
      let pn := c.primary_pn
      let m :=
        if (dictGet? m pn).isNone then
          dictSet m pn ⟨0, c.length.unit, c.manufacturer, c.mpn, c.description,
            c.alternates.map altStr, pystr "cable", []⟩
        else m
      let m := dictModify m pn fun e =>
        { e with quantity := e.quantity + c.length.value,
                 references := e.references ++ [cable_id] }
      processCables m rest

/-- Accessory pass of `_extract_bom_items`: each accessory contributes its
`quantity.value`; no reference designator is appended. -/
def processAccessories (m : List (PyStr × BOMEntry)) :
    List Accessory → List (PyStr × BOMEntry)
  | [] => m
  | a :: rest =>
      let pn := a.part.primary_pn
      let m :=
        if (dictGet? m pn).isNone then
          dictSet m pn ⟨0, a.quantity.unit, a.part.manufacturer, a.part.mpn,
            a.part.description, a.part.alternates.map altStr, pystr "accessory", []⟩
        else m
      let m := dictModify m pn fun e =>
        { e with quantity := e.quantity + a.quantity.value }
      processAccessories m rest

/-- Generic-parts pass of `_extract_bom_items`: a part whose part number
is already present (captured by an earlier pass) is skipped; otherwise it
contributes one unit under its own id. -/
def processGenericParts (m : List (PyStr × BOMEntry)) :
    List (PyStr × Part) → List (PyStr × BOMEntry)
  | [] => m
  | (part_id, p) :: rest =>
      let pn := p.primary_pn
      let m :=
        if (dictGet? m pn).isSome then m
        else
          dictSet m pn ⟨1, pystr "pcs", p.manufacturer, p.mpn, p.description,
            p.alternates.map altStr, pystr "part", [part_id]⟩
      processGenericParts m rest

/-- Ascending sort order of `sorted(items_by_pn.items())`: the keys are
distinct, so only the part-number comparison matters. -/
def bomLe (a b : PyStr × BOMEntry) : Prop := pyStrLe a.1 b.1 = true

instance : DecidableRel bomLe := fun a b => by unfold bomLe; infer_instance

/-- Final conversion to `BOMItem`s, numbering from `i` (the source's
`enumerate(..., start=1)`); references are comma-joined. -/
def toBOMItems (i : Nat) : List (PyStr × BOMEntry) → List BOMItem
  | [] => []
  | (pn, e) :: rest =>
      ⟨i, e.quantity, e.unit, pn, e.manufacturer, e.mpn, e.description,
       e.alternates, e.category, joinComma e.references⟩ :: toBOMItems (i + 1) rest

/-- Translation of `_extract_bom_items`. -/
def extractBomItems (document : HarnessDocument) : List BOMItem :=
  let m := processConnectors [] document.connectors
  let m := processCables m document.cables
  let m := processAccessories m document.accessories
  let m := processGenericParts m document.parts
  toBOMItems 1 (List.insertionSort bomLe m)

/-!
Association-list and order lemmas.
-/

theorem dictGet?_dictSet {V : Type} (m : List (PyStr × V)) (k : PyStr) (v : V)
    (q : PyStr) : dictGet? (dictSet m k v) q = if k = q then some v else dictGet? m q := by
  induction m with
  | nil => by_cases h : k = q <;> simp [dictSet, dictGet?, h]
  | cons kv rest ih =>
      obtain ⟨k0, v0⟩ := kv
      by_cases h0 : k0 = k
      · subst h0
        by_cases h : k0 = q <;> simp [dictSet, dictGet?, h]
      · by_cases h : k0 = q
        · have hkq : k ≠ q := fun hc => h0 (h.trans hc.symm)
          have hqk : q ≠ k := fun hc => hkq hc.symm
          simp [dictSet, dictGet?, h0, h, hkq, hqk]
        · simp [dictSet, dictGet?, h0, h, ih]

theorem dictGet?_dictModify {V : Type} (m : List (PyStr × V)) (k : PyStr)
    (f : V → V) (q : PyStr) :
    dictGet? (dictModify m k f) q =
      if k = q then (dictGet? m q).map f else dictGet? m q := by
  induction m with
  | nil => by_cases h : k = q <;> simp [dictModify, dictGet?, h]
  | cons kv rest ih =>
      obtain ⟨k0, v0⟩ := kv
      by_cases h0 : k0 = k
      · subst h0
        by_cases h : k0 = q <;> simp [dictModify, dictGet?, h]
      · by_cases h : k0 = q
        · have hkq : k ≠ q := fun hc => h0 (h.trans hc.symm)
          have hqk : q ≠ k := fun hc => hkq hc.symm
          simp [dictModify, dictGet?, h0, h, hkq, hqk]
        · simp [dictModify, dictGet?, h0, h, ih]

theorem keys_dictModify {V : Type} (m : List (PyStr × V)) (k : PyStr) (f : V → V) :
    (dictModify m k f).map Prod.fst = m.map Prod.fst := by
  induction m with
  | nil => simp [dictModify]
  | cons kv rest ih =>
      obtain ⟨k0, v0⟩ := kv
      by_cases h : k0 = k <;> simp [dictModify, h, ih]

theorem mem_keys_dictSet {V : Type} (m : List (PyStr × V)) (k : PyStr) (v : V)
    (q : PyStr) : q ∈ (dictSet m k v).map Prod.fst ↔ q = k ∨ q ∈ m.map Prod.fst := by
  induction m with
  | nil => simp [dictSet]
  | cons kv rest ih =>
      obtain ⟨k0, v0⟩ := kv
      by_cases h : k0 = k
      · subst h
        simp [dictSet]
      · simp only [dictSet, if_neg h, List.map_cons, List.mem_cons, ih]
        tauto

theorem nodup_keys_dictSet {V : Type} (m : List (PyStr × V)) (k : PyStr) (v : V)
    (h : (m.map Prod.fst).Nodup) : ((dictSet m k v).map Prod.fst).Nodup := by
  induction m with
  | nil => simp [dictSet]
  | cons kv rest ih =>
      obtain ⟨k0, v0⟩ := kv
      simp only [List.map_cons, List.nodup_cons] at h
      by_cases hk : k0 = k
      · subst hk
        simpa [dictSet] using h
      · simp only [dictSet, if_neg hk, List.map_cons, List.nodup_cons]
        refine ⟨fun hmem => ?_, ih h.2⟩
        rw [mem_keys_dictSet] at hmem
        rcases hmem with rfl | hmem
        · exact hk rfl
        · exact h.1 hmem

theorem nodup_keys_dictModify {V : Type} (m : List (PyStr × V)) (k : PyStr)
    (f : V → V) (h : (m.map Prod.fst).Nodup) :
    ((dictModify m k f).map Prod.fst).Nodup := by
  rw [keys_dictModify]; exact h

theorem pyStrLt_trans : ∀ a b c : List Nat,
    pyStrLt a b = true → pyStrLt b c = true → pyStrLt a c = true := by
  intro a
  induction a with
  | nil =>
      intro b c hab hbc
      cases b with
      | nil => simp [pyStrLt] at hab
      | cons y ys =>
          cases c with
          | nil => simp [pyStrLt] at hbc
          | cons z zs => simp [pyStrLt]
  | cons x xs ih =>
      intro b c hab hbc
      cases b with
      | nil => simp [pyStrLt] at hab
      | cons y ys =>
          cases c with
          | nil => simp [pyStrLt] at hbc
          | cons z zs =>
              simp only [pyStrLt] at hab hbc ⊢
              by_cases hxy : x = y
              · subst hxy
                by_cases hyz : x = z
                · subst hyz
                  simp only [if_pos rfl] at hab hbc ⊢
                  exact ih _ _ (by simpa using hab) (by simpa using hbc)
                · simp only [if_pos rfl] at hab
                  simpa [hyz] using hbc
              · by_cases hyz : y = z
                · subst hyz
                  simpa [hxy] using hab
                · simp only [if_neg hxy] at hab
                  simp only [if_neg hyz] at hbc
                  have h1 : x < y := by simpa using hab
                  have h2 : y < z := by simpa using hbc
                  have hxz : x ≠ z := by omega
                  simp [hxz]
                  omega

theorem pyStrLt_total : ∀ a b : List Nat,
    a = b ∨ pyStrLt a b = true ∨ pyStrLt b a = true := by
  intro a
  induction a with
  | nil =>
      intro b
      cases b with
      | nil => left; rfl
      | cons y ys => right; left; simp [pyStrLt]
  | cons x xs ih =>
      intro b
      cases b with
      | nil => right; right; simp [pyStrLt]
      | cons y ys =>
          by_cases hxy : x = y
          · subst hxy
            rcases ih ys with h | h | h
            · left; rw [h]
            · right; left; simpa [pyStrLt] using h
            · right; right; simpa [pyStrLt] using h
          · rcases Nat.lt_or_ge x y with h | h
            · right; left; simp [pyStrLt, hxy, h]
            · have hyx : y ≠ x := fun hc => hxy hc.symm
              have : y < x := by omega
              right; right; simp [pyStrLt, hyx, this]

theorem pyStrLe_of_ne_lt {a b : PyStr} (h : pyStrLe a b = true) (hne : a ≠ b) :
    pyStrLt a b = true := by
  unfold pyStrLe at h
  simpa [hne] using h

instance : IsTotal (PyStr × BOMEntry) bomLe := by
  constructor
  intro a b
  unfold bomLe pyStrLe
  rcases pyStrLt_total a.1 b.1 with h | h | h
  · left; simp [h]
  · left; simp [h]
  · right; simp [h]

instance : IsTrans (PyStr × BOMEntry) bomLe := by
  constructor
  intro a b c hab hbc
  unfold bomLe pyStrLe at hab hbc ⊢
  rcases Bool.or_eq_true_iff.mp hab with h1 | h1 <;>
    rcases Bool.or_eq_true_iff.mp hbc with h2 | h2
  · have e1 : a.1 = b.1 := by simpa using h1
    have e2 : b.1 = c.1 := by simpa using h2
    simp [e1, e2]
  · have e1 : a.1 = b.1 := by simpa using h1
    rw [Bool.or_eq_true_iff]; right; rw [e1]; exact h2
  · have e2 : b.1 = c.1 := by simpa using h2
    rw [Bool.or_eq_true_iff]; right; rw [← e2]; exact h1
  · rw [Bool.or_eq_true_iff]; right; exact pyStrLt_trans _ _ _ h1 h2

/-!
Normalisation lemmas for `ColorSpec.parse`: stripping and uppercasing are
idempotent and commute.
-/

theorem isPySpace_upperCh (c : Nat) : isPySpace (upperCh c) = isPySpace c := by
  unfold upperCh isPySpace
  by_cases h : 97 ≤ c ∧ c ≤ 122
  · rw [if_pos h]
    have h1 : (c - 32 == 32 || c - 32 == 9 || c - 32 == 10 || c - 32 == 13 ||
        c - 32 == 11 || c - 32 == 12) = false := by
      simp only [Bool.or_eq_false_iff, beq_eq_false_iff_ne, ne_eq]
      omega
    have h2 : (c == 32 || c == 9 || c == 10 || c == 13 ||
        c == 11 || c == 12) = false := by
      simp only [Bool.or_eq_false_iff, beq_eq_false_iff_ne, ne_eq]
      omega
    rw [h1, h2]
  · rw [if_neg h]

theorem upperCh_idem (c : Nat) : upperCh (upperCh c) = upperCh c := by
  unfold upperCh
  by_cases h : 97 ≤ c ∧ c ≤ 122
  · rw [if_pos h]
    have h' : ¬ (97 ≤ c - 32 ∧ c - 32 ≤ 122) := by omega
    rw [if_neg h']
  · simp only [if_neg h]

theorem pyUpper_idem (s : PyStr) : pyUpper (pyUpper s) = pyUpper s := by
  unfold pyUpper
  rw [List.map_map]
  exact List.map_congr_left fun c _ => upperCh_idem c

theorem dropWhile_pyUpper (s : List Nat) :
    (s.map upperCh).dropWhile isPySpace = (s.dropWhile isPySpace).map upperCh := by
  induction s with
  | nil => simp
  | cons c rest ih =>
      by_cases h : isPySpace c
      · simp [List.dropWhile_cons, isPySpace_upperCh, h, ih]
      · simp [List.dropWhile_cons, isPySpace_upperCh, h]

theorem pyStrip_pyUpper (s : PyStr) : pyStrip (pyUpper s) = pyUpper (pyStrip s) := by
  unfold pyStrip pyUpper
  rw [dropWhile_pyUpper, ← List.map_reverse, dropWhile_pyUpper, ← List.map_reverse]

theorem dropWhile_dropWhile (p : Nat → Bool) (l : List Nat) :
    (l.dropWhile p).dropWhile p = l.dropWhile p := by
  induction l with
  | nil => simp
  | cons c rest ih =>
      by_cases h : p c
      · simp [List.dropWhile_cons, h, ih]
      · simp [List.dropWhile_cons, h]

theorem dropWhile_suffix_ex (p : Nat → Bool) (l : List Nat) :
    ∃ t, t ++ l.dropWhile p = l := by
  induction l with
  | nil => exact ⟨[], rfl⟩
  | cons c rest ih =>
      by_cases h : p c
      · obtain ⟨t, ht⟩ := ih
        exact ⟨c :: t, by simp [List.dropWhile_cons, h, ht]⟩
      · exact ⟨[], by simp [List.dropWhile_cons, h]⟩

theorem dropWhile_head_false (p : Nat → Bool) (l : List Nat) :
    ∀ x, (l.dropWhile p).head? = some x → p x = false := by
  induction l with
  | nil => intro x hx; simp at hx
  | cons c rest ih =>
      intro x hx
      by_cases h : p c
      · rw [List.dropWhile_cons, if_pos h] at hx
        exact ih x hx
      · rw [List.dropWhile_cons, if_neg h] at hx
        simp at hx
        subst hx
        simpa using h

theorem dropWhile_eq_self_of_head (p : Nat → Bool) (l : List Nat)
    (h : ∀ x, l.head? = some x → p x = false) : l.dropWhile p = l := by
  cases l with
  | nil => simp
  | cons c rest =>
      have := h c (by simp)
      simp [List.dropWhile_cons, this]

theorem pyStrip_head_false (s : PyStr) :
    ∀ x, (pyStrip s : List Nat).head? = some x → isPySpace x = false := by
  intro x hx
  unfold pyStrip at hx
  obtain ⟨t, ht⟩ := dropWhile_suffix_ex isPySpace ((s : List Nat).dropWhile isPySpace).reverse
  -- pyStrip s is a prefix of dropWhile isPySpace s, so their heads agree.
  have hpre : ∃ u, (((s : List Nat).dropWhile isPySpace).reverse.dropWhile isPySpace).reverse ++ u
      = (s : List Nat).dropWhile isPySpace := by
    refine ⟨t.reverse, ?_⟩
    have := congrArg List.reverse ht
    simpa [List.reverse_append] using this
  obtain ⟨u, hu⟩ := hpre
  cases hB : (((s : List Nat).dropWhile isPySpace).reverse.dropWhile isPySpace).reverse with
  | nil => rw [hB] at hx; simp at hx
  | cons b bs =>
      rw [hB] at hx hu
      simp at hx
      have hbh : ((s : List Nat).dropWhile isPySpace).head? = some b := by
        rw [← hu]; simp
      have hb := dropWhile_head_false isPySpace _ b hbh
      rwa [hx] at hb

theorem pyStrip_idem (s : PyStr) : pyStrip (pyStrip s) = pyStrip s := by
  have h1 : ((pyStrip s : List Nat)).dropWhile isPySpace = pyStrip s :=
    dropWhile_eq_self_of_head _ _ (pyStrip_head_false s)
  show (((pyStrip s : List Nat).dropWhile isPySpace).reverse.dropWhile isPySpace).reverse
      = pyStrip s
  rw [h1]
  show ((((((s : List Nat).dropWhile isPySpace).reverse.dropWhile isPySpace).reverse : List Nat)).reverse.dropWhile isPySpace).reverse = pyStrip s
  rw [List.reverse_reverse, dropWhile_dropWhile]
  rfl

theorem pyNorm_strip (s : PyStr) :
    pyStrip (pyUpper (pyStrip s)) = pyUpper (pyStrip s) := by
  rw [pyStrip_pyUpper, pyStrip_idem]

theorem pyNorm_idem (s : PyStr) :
    pyUpper (pyStrip (pyUpper (pyStrip s))) = pyUpper (pyStrip s) := by
  rw [pyNorm_strip, pyUpper_idem]

/-!
Claim theorems.
-/

/-- C7: the claim states that pin fields are either integers `≥ 1` or
non-numeric string labels, that integers below 1 are rejected, and that
every numeric string is coerced to its integer value.  Evaluating the
translated `normalize_pin` at the failing input `"0"` shows the code
keeping the numeric string `"0"` as a string label: the `raise` for a
converted value below 1 sits inside its own `try` block and is swallowed
by the `except ValueError` handler.  Integer `0` is rejected and the
numeric string `"5"` is coerced, as claimed; a whole `Connection` is
accepted with the numeric string label `"0"` as its `from_pin`. -/
theorem C7_normalize_pin_numeric_string_zero :
    normalize_pin (.str (pystr "0")) = .ok (.str (pystr "0"))
    ∧ normalize_pin (.str (pystr "-3")) = .ok (.str (pystr "-3"))
    ∧ normalize_pin (.int 0) = .error (pystr "Pin numbers must be positive (1-based)")
    ∧ normalize_pin (.str (pystr "5")) = .ok (.int 5)
    ∧ normalize_pin (.int 7) = .ok (.int 7)
    ∧ (Connection.make (pystr "J1") (.str (pystr "0")) (pystr "W1") 0
        (pystr "J2") (.int 1) none none none).map Connection.from_pin
        = .ok (.str (pystr "0")) := by
  refine ⟨by decide, by decide, by decide, by decide, by decide, by decide⟩

/-- C8 counterexample: the claim states `to_base_unit` succeeds only when
both units are in the length table or the two units are textually
identical.  The units `"PCS"` and `"pcs"` are textually distinct and
neither is in the length table, yet the conversion succeeds, because the
source compares the units after lowercasing both. -/
theorem C8_counterexample :
    (Quantity.to_base_unit ⟨1, pystr "PCS"⟩ (pystr "pcs")).isOk = true
    ∧ pystr "PCS" ≠ pystr "pcs"
    ∧ dictGet? Quantity.length_to_meters (pystr "PCS") = none
    ∧ dictGet? Quantity.length_to_meters (pystr "pcs") = none := by
  refine ⟨by rfl, by decide, by rfl, by rfl⟩

/-- C8 (amended): `to_base_unit` succeeds if and only if both the
lowercased source unit and the lowercased target unit are in the fixed
length table `{m, cm, mm, ft, in}` — returning the value scaled by the
ratio of the two units' meter factors — or the two units are identical
after lowercasing (identity conversion); every other combination raises
the unsupported-conversion error. -/
theorem C8_to_base_unit_characterization (q : Quantity) (target_unit : PyStr) :
    ((Quantity.to_base_unit q target_unit).isOk = true ↔
      ((dictGet? Quantity.length_to_meters (pyLower q.unit)).isSome
        ∧ (dictGet? Quantity.length_to_meters (pyLower target_unit)).isSome)
      ∨ pyLower q.unit = pyLower target_unit)
    ∧ (∀ fCur fTgt,
        dictGet? Quantity.length_to_meters (pyLower q.unit) = some fCur →
        dictGet? Quantity.length_to_meters (pyLower target_unit) = some fTgt →
        Quantity.to_base_unit q target_unit
          = .ok ⟨q.value * fCur / fTgt, pyStrip target_unit⟩)
    ∧ (((dictGet? Quantity.length_to_meters (pyLower q.unit)).isSome
        ∧ (dictGet? Quantity.length_to_meters (pyLower target_unit)).isSome → False) →
        pyLower q.unit = pyLower target_unit →
        Quantity.to_base_unit q target_unit = .ok ⟨q.value, pyStrip target_unit⟩) := by
  cases hc : dictGet? Quantity.length_to_meters (pyLower q.unit) with
  | some fCur =>
      cases ht : dictGet? Quantity.length_to_meters (pyLower target_unit) with
      | some fTgt =>
          have e : Quantity.to_base_unit q target_unit
              = .ok ⟨q.value * fCur / fTgt, pyStrip target_unit⟩ := by
            simp only [Quantity.to_base_unit, hc, ht]
          refine ⟨?_, ?_, ?_⟩
          · simp [e, Res.isOk]
          · intro f1 f2 h1 h2
            have e1 : fCur = f1 := Option.some.inj h1
            have e2 : fTgt = f2 := Option.some.inj h2
            rw [e, e1, e2]
          · intro hno _
            exact absurd (fun _ => ⟨by simp, by simp⟩) (fun hcon => hno (hcon trivial))
      | none =>
          have e : Quantity.to_base_unit q target_unit
              = if pyLower q.unit = pyLower target_unit
                then .ok ⟨q.value, pyStrip target_unit⟩
                else .error (pystr "Cannot convert: conversion not supported") := by
            simp only [Quantity.to_base_unit, hc, ht]
          refine ⟨?_, ?_, ?_⟩
          · by_cases he : pyLower q.unit = pyLower target_unit <;>
              simp [e, Res.isOk, he]
          · intro f1 f2 h1 h2
            exact absurd h2 (by simp)
          · intro _ he
            simp [e, he]
  | none =>
      have e : Quantity.to_base_unit q target_unit
          = if pyLower q.unit = pyLower target_unit
            then .ok ⟨q.value, pyStrip target_unit⟩
            else .error (pystr "Cannot convert: conversion not supported") := by
        simp only [Quantity.to_base_unit, hc]
      refine ⟨?_, ?_, ?_⟩
      · by_cases he : pyLower q.unit = pyLower target_unit <;>
          simp [e, Res.isOk, he]
      · intro f1 f2 h1 h2
        exact absurd h1 (by simp)
      · intro _ he
        simp [e, he]

/-- C8 witness: the characterization applied to converting 2 m to cm,
with the scaled value evaluated. -/
theorem C8_witness :
    Quantity.to_base_unit ⟨2, pystr "m"⟩ (pystr "cm")
      = .ok ⟨(2 : ℚ) * 1 / (1/100), pystr "cm"⟩
    ∧ ((2 : ℚ) * 1 / (1/100)) = 200 := by
  constructor
  · exact (C8_to_base_unit_characterization ⟨2, pystr "m"⟩ (pystr "cm")).2.1
      1 (1/100) (by rfl) (by rfl)
  · norm_num

/-- The display color of a parsed spec is always the stripped input (the
normalised string is re-stripped by the constructor). -/
theorem display_parseNormalized (n : PyStr) :
    (ColorSpec.parseNormalized n).display_color = pyStrip n := by
  unfold ColorSpec.parseNormalized ColorSpec.make
  repeat' split
  all_goals rfl

/-- C4 counterexample: the claim states `ColorSpec.parse` is total over
non-empty strings, but the non-empty whitespace-only string `" "` is
rejected (the source strips before its emptiness check). -/
theorem C4_counterexample :
    pystr " " ≠ ([] : PyStr)
    ∧ ColorSpec.parse (pystr " ")
        = .error (pystr "Color specification cannot be empty") := by
  exact ⟨by decide, by decide⟩

/-- C4 (amended): `ColorSpec.parse` is total over strings that are
non-empty after whitespace stripping, and applies the precedence rules in
exactly the stated order on the stripped, uppercased string: hyphen split
first; then two letters plus digits; then the 4-character concatenation
check, which runs only on strings matching neither earlier rule with both
halves in the fixed 20-entry standard color-code set; then 2-3 letter
single color; then the whole-string fallback.  `parse "BU-WH"` yields
base `BU` stripe `WH`, `parse "BUWH"` yields base `BU` stripe `WH`, and
`parse "BK"` yields base `BK` and no stripe. -/
theorem C4_color_parse_precedence :
    (∀ s : PyStr, pyStrip s ≠ [] →
      ColorSpec.parse s = .ok (ColorSpec.parseNormalized (pyUpper (pyStrip s))))
    ∧ (∀ n : PyStr, 45 ∈ n →
        ColorSpec.parseNormalized n
          = ColorSpec.make n ((pySplitOn 45 n).headD [])
              (if (pySplitOn 45 n).length > 1 then some ((pySplitOn 45 n).getD 1 [])
               else none))
    ∧ (∀ n : PyStr, 45 ∉ n → ColorSpec.matchesNumbered n = true →
        ColorSpec.parseNormalized n = ColorSpec.make n (n.take 2) none)
    ∧ (∀ n : PyStr, 45 ∉ n → ColorSpec.matchesNumbered n = false →
        n.length = 4 → n.take 2 ∈ ColorSpec.STANDARD_COLOR_CODES →
        n.drop 2 ∈ ColorSpec.STANDARD_COLOR_CODES →
        ColorSpec.parseNormalized n = ColorSpec.make n (n.take 2) (some (n.drop 2)))
    ∧ (∀ n : PyStr, 45 ∉ n → ColorSpec.matchesNumbered n = false →
        ¬ (n.length = 4 ∧ n.take 2 ∈ ColorSpec.STANDARD_COLOR_CODES ∧
           n.drop 2 ∈ ColorSpec.STANDARD_COLOR_CODES) →
        2 ≤ n.length ∧ n.length ≤ 3 ∧ n.all isAlphaCh →
        ColorSpec.parseNormalized n = ColorSpec.make n n none)
    ∧ (∀ n : PyStr, 45 ∉ n → ColorSpec.matchesNumbered n = false →
        ¬ (n.length = 4 ∧ n.take 2 ∈ ColorSpec.STANDARD_COLOR_CODES ∧
           n.drop 2 ∈ ColorSpec.STANDARD_COLOR_CODES) →
        ¬ (2 ≤ n.length ∧ n.length ≤ 3 ∧ n.all isAlphaCh) →
        ColorSpec.parseNormalized n = ColorSpec.make n n none)
    ∧ ColorSpec.parse (pystr "BU-WH")
        = .ok ⟨pystr "BU-WH", pystr "BU", some (pystr "WH")⟩
    ∧ ColorSpec.parse (pystr "BUWH")
        = .ok ⟨pystr "BUWH", pystr "BU", some (pystr "WH")⟩
    ∧ ColorSpec.parse (pystr "BK") = .ok ⟨pystr "BK", pystr "BK", none⟩ := by
  refine ⟨?_, ?_, ?_, ?_, ?_, ?_, by decide, by decide, by decide⟩
  · intro s h
    have hs : s ≠ [] := by
      intro hc
      apply h
      rw [hc]
      rfl
    have hn : pyUpper (pyStrip s) ≠ [] := by
      intro hc
      apply h
      unfold pyUpper at hc
      exact List.map_eq_nil_iff.mp hc
    simp [ColorSpec.parse, hs, hn]
  · intro n h
    simp [ColorSpec.parseNormalized, h]
  · intro n h1 h2
    simp [ColorSpec.parseNormalized, h1, h2]
  · intro n h1 h2 h3 h4 h5
    simp [ColorSpec.parseNormalized, h1, h2, h3, h4, h5]
  · intro n h1 h2 h3 h4
    simp [ColorSpec.parseNormalized, h1, h2, h3, h4]
  · intro n h1 h2 h3 h4
    simp [ColorSpec.parseNormalized, h1, h2, h3, h4]

/-- C4 witness: totality applied at the concrete input `"BK"`. -/
theorem C4_witness :
    pyStrip (pystr "BK") ≠ [] ∧
    ColorSpec.parse (pystr "BK")
      = .ok (ColorSpec.parseNormalized (pyUpper (pyStrip (pystr "BK")))) :=
  ⟨by decide, C4_color_parse_precedence.1 (pystr "BK") (by decide)⟩

/-- C9: for every color string on which `ColorSpec.parse` succeeds,
parsing is idempotent through the display representation:
`parse(str(parse(x)))` equals `parse(x)`. -/
theorem C9_parse_display_idempotent (x : PyStr) (c : ColorSpec)
    (h : ColorSpec.parse x = .ok c) :
    ColorSpec.parse (ColorSpec.toStr c) = ColorSpec.parse x := by
  unfold ColorSpec.parse at h
  by_cases hx : (x : List Nat) = []
  · rw [if_pos hx] at h
    cases h
  · rw [if_neg hx] at h
    by_cases hn : (pyUpper (pyStrip x) : List Nat) = []
    · simp only [if_pos hn] at h
      cases h
    · simp only [if_neg hn] at h
      have hc : c = ColorSpec.parseNormalized (pyUpper (pyStrip x)) :=
        (Res.ok.inj h).symm
      have hdisp : ColorSpec.toStr c = pyUpper (pyStrip x) := by
        rw [hc]
        show (ColorSpec.parseNormalized (pyUpper (pyStrip x))).display_color = _
        rw [display_parseNormalized, pyNorm_strip]
      rw [hdisp]
      unfold ColorSpec.parse
      rw [if_neg hn, if_neg hx]
      simp only [pyNorm_idem, if_neg hn]

/-- C9 witness: idempotence applied at the concrete input `" bu-wh "`. -/
theorem C9_witness :
    ColorSpec.parse (ColorSpec.toStr ⟨pystr "BU-WH", pystr "BU", some (pystr "WH")⟩)
      = ColorSpec.parse (pystr " bu-wh ") :=
  C9_parse_display_idempotent (pystr " bu-wh ")
    ⟨pystr "BU-WH", pystr "BU", some (pystr "WH")⟩ (by decide)

/-- Validity of one connection's references: both connectors exist, the
cable exists, and the core index is below the cable's wirecount. -/
def connRefValid (connectors : List (PyStr × Connector))
    (cables : List (PyStr × Cable)) (conn : Connection) : Bool :=
  (dictGet? connectors conn.from_connector).isSome
  && (dictGet? connectors conn.to_connector).isSome
  && (match dictGet? cables conn.cable with
      | some cable => decide (conn.core < cable.wirecount)
      | none => false)

theorem connectionErrors_eq_nil_iff (connectors : List (PyStr × Connector))
    (cables : List (PyStr × Cable)) (i : Nat) (conn : Connection) :
    connectionErrors connectors cables i conn = []
      ↔ connRefValid connectors cables conn = true := by
  unfold connectionErrors connRefValid
  rcases h1 : dictGet? connectors conn.from_connector with _ | v1 <;>
    rcases h2 : dictGet? connectors conn.to_connector with _ | v2 <;>
      rcases h3 : dictGet? cables conn.cable with _ | cb <;>
        simp [h1, h2, h3]

theorem collectConnectionErrors_eq_nil_iff (connectors : List (PyStr × Connector))
    (cables : List (PyStr × Cable)) :
    ∀ (l : List Connection) (i : Nat),
      collectConnectionErrors connectors cables i l = []
        ↔ ∀ conn ∈ l, connRefValid connectors cables conn = true := by
  intro l
  induction l with
  | nil => intro i; simp [collectConnectionErrors]
  | cons c rest ih =>
      intro i
      simp only [collectConnectionErrors, List.append_eq_nil, List.mem_cons]
      rw [connectionErrors_eq_nil_iff _ _ i c, ih (i + 1)]
      constructor
      · rintro ⟨hc, hrest⟩ conn (rfl | hmem)
        · exact hc
        · exact hrest conn hmem
      · intro h
        exact ⟨h c (Or.inl rfl), fun conn hmem => h conn (Or.inr hmem)⟩

theorem connectionErrors_mem_collect (connectors : List (PyStr × Connector))
    (cables : List (PyStr × Cable)) :
    ∀ (l : List Connection) (i j : Nat) (conn : Connection) (msg : PyStr),
      l.get? j = some conn →
      msg ∈ connectionErrors connectors cables (i + j) conn →
      msg ∈ collectConnectionErrors connectors cables i l := by
  intro l
  induction l with
  | nil => intro i j conn msg hj; simp at hj
  | cons c rest ih =>
      intro i j conn msg hj hmem
      cases j with
      | zero =>
          simp only [List.get?] at hj
          cases hj
          simp only [collectConnectionErrors, List.mem_append]
          exact Or.inl hmem
      | succ j' =>
          simp only [List.get?] at hj
          simp only [collectConnectionErrors, List.mem_append]
          refine Or.inr (ih (i + 1) j' conn msg hj ?_)
          have : i + 1 + j' = i + (j' + 1) := by omega
          rw [this]
          exact hmem

/-- C1: `HarnessDocument` construction fails if and only if some
connection references a `from_connector` or `to_connector` absent from
the connectors map, a cable absent from the cables map, or a core index
not below the referenced cable's wirecount; on failure the raised error
carries every violation found across all connections (each violated
condition of connection `i` contributes its message to the collected
list); and the concrete document whose single connection references cable
`"W2"` when only `"W1"` exists fails with an error naming `W2`. -/
theorem C1_harness_referential_integrity :
    (∀ metadata parts connectors cables connections accessories notes,
      (HarnessDocument.make metadata parts connectors cables connections
          accessories notes).isOk = true
        ↔ ∀ conn ∈ connections, connRefValid connectors cables conn = true)
    ∧ (∀ (connectors : List (PyStr × Connector)) (cables : List (PyStr × Cable))
        (connections : List Connection) (i : Nat) (conn : Connection),
        connections.get? i = some conn →
          ((dictGet? connectors conn.from_connector = none →
              (pystr "Connection " ++ natDecimal i ++ pystr ": from_connector "
                ++ [39] ++ conn.from_connector ++ [39] ++ pystr " not found")
                ∈ collectConnectionErrors connectors cables 0 connections)
           ∧ (dictGet? connectors conn.to_connector = none →
              (pystr "Connection " ++ natDecimal i ++ pystr ": to_connector "
                ++ [39] ++ conn.to_connector ++ [39] ++ pystr " not found")
                ∈ collectConnectionErrors connectors cables 0 connections)
           ∧ (dictGet? cables conn.cable = none →
              (pystr "Connection " ++ natDecimal i ++ pystr ": cable "
                ++ [39] ++ conn.cable ++ [39] ++ pystr " not found")
                ∈ collectConnectionErrors connectors cables 0 connections)
           ∧ (∀ cable, dictGet? cables conn.cable = some cable →
              conn.core ≥ cable.wirecount →
              (pystr "Connection " ++ natDecimal i ++ pystr ": core index "
                ++ intDecimal conn.core ++ pystr " out of range for cable "
                ++ [39] ++ conn.cable ++ [39] ++ pystr " with "
                ++ intDecimal cable.wirecount ++ pystr " wires")
                ∈ collectConnectionErrors connectors cables 0 connections)))
    ∧ HarnessDocument.make ⟨pystr "WH-1", pystr "T", pystr "A", pystr "2024-01-01"⟩
        []
        [(pystr "J1", ⟨pystr "J1", pystr "PN-J1", pystr "Unknown", pystr "X",
            pystr "Connector J1", pystr "other", none, 2, [], [], [], none, none⟩),
         (pystr "J2", ⟨pystr "J2", pystr "PN-J2", pystr "Unknown", pystr "X",
            pystr "Connector J2", pystr "other", none, 2, [], [], [], none, none⟩)]
        [(pystr "W1", ⟨pystr "W1", pystr "PN-W1", pystr "Unknown", pystr "X",
            pystr "Cable W1", 2, [], pystr "22 AWG", ⟨1, pystr "m"⟩, none, [], [],
            none, none⟩)]
        [⟨pystr "J1", .int 1, pystr "W2", 0, pystr "J2", .int 1, none, none, none⟩]
        [] none
      = .error [pystr "Connection 0: cable " ++ [39] ++ pystr "W2" ++ [39]
          ++ pystr " not found"] := by
  refine ⟨?_, ?_, by decide⟩
  · intro metadata parts connectors cables connections accessories notes
    unfold HarnessDocument.make
    rw [← collectConnectionErrors_eq_nil_iff connectors cables connections 0]
    cases h : collectConnectionErrors connectors cables 0 connections with
    | nil => simp [Res.isOk]
    | cons e es => simp [Res.isOk]
  · intro connectors cables connections i conn hget
    refine ⟨?_, ?_, ?_, ?_⟩
    · intro hnone
      refine connectionErrors_mem_collect connectors cables connections 0 i conn _
        hget ?_
      unfold connectionErrors
      rw [Nat.zero_add]
      simp [hnone]
    · intro hnone
      refine connectionErrors_mem_collect connectors cables connections 0 i conn _
        hget ?_
      unfold connectionErrors
      rw [Nat.zero_add]
      simp [hnone]
    · intro hnone
      refine connectionErrors_mem_collect connectors cables connections 0 i conn _
        hget ?_
      unfold connectionErrors
      rw [Nat.zero_add]
      simp [hnone]
    · intro cable hsome hge
      refine connectionErrors_mem_collect connectors cables connections 0 i conn _
        hget ?_
      unfold connectionErrors
      rw [Nat.zero_add]
      simp [hsome, hge]

/-- C1 witness: the success direction applied to a concrete valid
document, and the every-violation clause applied to the `W2` scenario. -/
theorem C1_witness :
    (HarnessDocument.make ⟨pystr "WH-1", pystr "T", pystr "A", pystr "2024-01-01"⟩
        []
        [(pystr "J1", ⟨pystr "J1", pystr "PN-J1", pystr "Unknown", pystr "X",
            pystr "Connector J1", pystr "other", none, 2, [], [], [], none, none⟩)]
        [(pystr "W1", ⟨pystr "W1", pystr "PN-W1", pystr "Unknown", pystr "X",
            pystr "Cable W1", 2, [], pystr "22 AWG", ⟨1, pystr "m"⟩, none, [], [],
            none, none⟩)]
        [⟨pystr "J1", .int 1, pystr "W1", 0, pystr "J1", .int 2, none, none, none⟩]
        [] none).isOk = true
    ∧ (pystr "Connection 0: cable " ++ [39] ++ pystr "W2" ++ [39]
        ++ pystr " not found")
        ∈ collectConnectionErrors
            [(pystr "J1", ⟨pystr "J1", pystr "PN-J1", pystr "Unknown", pystr "X",
                pystr "Connector J1", pystr "other", none, 2, [], [], [], none, none⟩)]
            []
            0
            [⟨pystr "J1", .int 1, pystr "W2", 0, pystr "J1", .int 1, none, none, none⟩] := by
  constructor
  · exact (C1_harness_referential_integrity.1 _ _ _ _ _ _ _).mpr (by decide)
  · exact (C1_harness_referential_integrity.2.1
      [(pystr "J1", ⟨pystr "J1", pystr "PN-J1", pystr "Unknown", pystr "X",
          pystr "Connector J1", pystr "other", none, 2, [], [], [], none, none⟩)]
      []
      [⟨pystr "J1", .int 1, pystr "W2", 0, pystr "J1", .int 1, none, none, none⟩]
      0
      ⟨pystr "J1", .int 1, pystr "W2", 0, pystr "J1", .int 1, none, none, none⟩
      rfl).2.2.1 rfl

@[simp] theorem Res.ok_bind {ε α β : Type} (a : α) (f : α → Res ε β) :
    (Res.ok a : Res ε α) >>= f = f a := rfl

@[simp] theorem Res.error_bind {ε α β : Type} (e : ε) (f : α → Res ε β) :
    (Res.error e : Res ε α) >>= f = .error e := rfl

@[simp] theorem Res.pure_eq {ε α : Type} (a : α) :
    (pure a : Res ε α) = .ok a := rfl

@[simp] theorem Res.map_ok {ε α β : Type} (f : α → β) (a : α) :
    Res.map f (Res.ok a : Res ε α) = .ok (f a) := rfl

@[simp] theorem Res.map_error {ε α β : Type} (f : α → β) (e : ε) :
    Res.map f (Res.error e : Res ε α) = .error e := rfl

theorem connector_make_ok {id primary_pn manufacturer mpn description type subtype
    pincount pinlabels alternates fields image notes : _} {c : Connector}
    (h : Connector.make id primary_pn manufacturer mpn description type subtype
      pincount pinlabels alternates fields image notes = .ok c) :
    c = ⟨pyStrip id, pyStrip primary_pn, pyStrip manufacturer, pyStrip mpn,
         pyStrip description, type, subtype, pincount, pinlabels, alternates,
         fields, image, notes⟩ := by
  unfold Connector.make at h
  repeat' split at h
  all_goals cases h
  all_goals rfl

set_option maxHeartbeats 1000000 in
theorem cable_make_ok {id primary_pn manufacturer mpn description wirecount cores
    gauge length shield alternates fields image notes : _} {c : Cable}
    (h : Cable.make id primary_pn manufacturer mpn description wirecount cores
      gauge length shield alternates fields image notes = .ok c) :
    c = ⟨pyStrip id, pyStrip primary_pn, pyStrip manufacturer, pyStrip mpn,
         pyStrip description, wirecount, cores, pyStrip gauge, length, shield,
         alternates, fields, image, notes⟩ := by
  unfold Cable.make at h
  repeat' split at h
  all_goals cases h
  all_goals rfl

theorem connection_make_ok {from_connector from_pin cable core to_connector to_pin
    notes signal_name wire_label : _} {c : Connection}
    (h : Connection.make from_connector from_pin cable core to_connector to_pin
      notes signal_name wire_label = .ok c) :
    ∃ fp tp, normalize_pin from_pin = .ok fp ∧ normalize_pin to_pin = .ok tp ∧
      c = ⟨pyStrip from_connector, fp, pyStrip cable, core, pyStrip to_connector,
           tp, stripOptional notes, stripOptional signal_name,
           stripOptional wire_label⟩ := by
  unfold Connection.make at h
  repeat' split at h
  all_goals try cases h
  cases hfp : normalize_pin from_pin with
  | error e => rw [hfp] at h; cases h
  | ok fp =>
      rw [hfp] at h
      cases htp : normalize_pin to_pin with
      | error e => rw [htp] at h; simp at h
      | ok tp =>
          rw [htp] at h
          simp at h
          exact ⟨fp, tp, rfl, rfl, h.symm⟩

/-- C3 counterexample: the claim states every inherited field, including
`description`, is overridden by a same-named key on the entry.  A
connector entry carrying `description: "Entry desc"` while referencing a
part whose description is `"Part desc"` parses to a connector whose
description is the part's, not the entry's: the source assigns
`description = part.description` without consulting the entry. -/
theorem C3_counterexample :
    Res.map Connector.description
      (parseConnectorEntry (pystr "J1")
        ⟨some (pystr "P1"), none, none, none, some (pystr "Entry desc"), [], none,
         [], none, none, [], some 2, none⟩
        [(pystr "P1", ⟨pystr "P1", pystr "PN-100", pystr "ACME", pystr "MPN-1",
            pystr "Part desc", [], [], none⟩)])
      = .ok (pystr "Part desc")
    ∧ pystr "Part desc" ≠ pystr "Entry desc" := by
  exact ⟨by decide, by decide⟩

/-- C3 (amended): when a connector or cable entry resolves a part
reference, `manufacturer`, `mpn` and the custom `fields` are inherited
with any same-named entry-level key taking precedence field-by-field, the
`image` prefers the entry's image over the part's, and `primary_pn` uses
the entry's `pn` key when present; but `description` and `alternates`
are always taken from the referenced part — entry-level values for those
two fields are ignored. -/
theorem C3_part_inheritance :
    (∀ (conn_id : PyStr) (info : RawConnector) (parts : List (PyStr × Part))
      (p : Part), resolvePartRef info.pn info.part parts = some p →
      ∀ c, parseConnectorEntry conn_id info parts = .ok c →
        c.manufacturer = pyStrip (info.manufacturer.getD p.manufacturer)
        ∧ c.mpn = pyStrip (info.mpn.getD p.mpn)
        ∧ c.primary_pn = pyStrip (info.pn.getD p.primary_pn)
        ∧ c.description = pyStrip p.description
        ∧ c.alternates = p.alternates
        ∧ c.fields = dictMerge p.fields info.fields
        ∧ ∀ img, parseImage info.image = .ok img →
            c.image = img.orElse fun _ => p.image)
    ∧ (∀ (cable_id : PyStr) (info : RawCable) (parts : List (PyStr × Part))
      (p : Part), resolvePartRef info.pn info.part parts = some p →
      ∀ c, parseCableEntry cable_id info parts = .ok c →
        c.manufacturer = pyStrip (info.manufacturer.getD p.manufacturer)
        ∧ c.mpn = pyStrip (info.mpn.getD p.mpn)
        ∧ c.primary_pn = pyStrip (info.pn.getD p.primary_pn)
        ∧ c.description = pyStrip p.description
        ∧ c.alternates = p.alternates
        ∧ c.fields = dictMerge p.fields info.fields
        ∧ ∀ img, parseImage info.image = .ok img →
            c.image = img.orElse fun _ => p.image) := by
  constructor
  · intro conn_id info parts p hp c hc
    unfold parseConnectorEntry at hc
    rw [hp] at hc
    cases himg : parseImage info.image with
    | error e => rw [himg] at hc; simp at hc
    | ok img =>
        rw [himg] at hc
        simp only [Res.ok_bind] at hc
        have hinv := connector_make_ok hc
        subst hinv
        refine ⟨rfl, rfl, rfl, rfl, rfl, rfl, ?_⟩
        intro img' himg'
        cases himg'
        rfl
  · intro cable_id info parts p hp c hc
    unfold parseCableEntry at hc
    rw [hp] at hc
    cases himg : parseImage info.image with
    | error e => rw [himg] at hc; simp at hc
    | ok img =>
        rw [himg] at hc
        simp only [Res.ok_bind] at hc
        cases hcores : parseCoresFromWireviz info.colors info.wirelabels with
        | error e => rw [hcores] at hc; simp at hc
        | ok cores =>
            rw [hcores] at hc
            simp only [Res.ok_bind] at hc
            cases hlen : parseQuantity (info.length.getD (.dict (some 0) (some (pystr "mm")))) with
            | error e => rw [hlen] at hc; simp at hc
            | ok len =>
                rw [hlen] at hc
                simp only [Res.ok_bind] at hc
                rcases hsh : info.shield with _ | b | ⟨t, cov, dw⟩
                · rw [hsh] at hc
                  simp only [Res.pure_eq, Res.ok_bind] at hc
                  have hinv := cable_make_ok hc
                  subst hinv
                  refine ⟨rfl, rfl, rfl, rfl, rfl, rfl, ?_⟩
                  intro img' himg'
                  cases himg'
                  rfl
                · rw [hsh] at hc
                  simp only [Res.pure_eq, Res.ok_bind] at hc
                  have hinv := cable_make_ok hc
                  subst hinv
                  refine ⟨rfl, rfl, rfl, rfl, rfl, rfl, ?_⟩
                  intro img' himg'
                  cases himg'
                  rfl
                · rw [hsh] at hc
                  simp only [Res.pure_eq, Res.ok_bind] at hc
                  cases hmk : ShieldSpec.make
                      (if pyLower (t.getD (pystr "braided")) ∈ shieldTypeValues
                       then pyLower (t.getD (pystr "braided")) else pystr "braided")
                      cov (dw.getD false) none with
                  | error e =>
                      rw [hmk] at hc
                      simp at hc
                  | ok sh =>
                      rw [hmk] at hc
                      simp only [Res.map_ok, Res.ok_bind] at hc
                      have hinv := cable_make_ok hc
                      subst hinv
                      refine ⟨rfl, rfl, rfl, rfl, rfl, rfl, ?_⟩
                      intro img' himg'
                      cases himg'
                      rfl

/-- Connector entry used by the C3 witness: references part `P1` and
overrides the manufacturer at entry level. -/
def c3entry : RawConnector :=
  ⟨some (pystr "P1"), none, some (pystr "OverrideCo"), none, none, [], none,
   [], none, none, [], some 2, none⟩

/-- Parts table used by the C3 witness. -/
def c3parts : List (PyStr × Part) :=
  [(pystr "P1", ⟨pystr "P1", pystr "PN-100", pystr "ACME", pystr "MPN-1",
      pystr "Part desc", [], [], none⟩)]

/-- The connector produced from `c3entry` against `c3parts`. -/
def c3conn : Connector :=
  ⟨pystr "J1", pystr "P1", pystr "OverrideCo", pystr "MPN-1", pystr "Part desc",
   pystr "other", some (pystr "other"), 2, [], [], [], none, none⟩

/-- C3 witness: the inheritance rule applied to a concrete entry that
overrides `manufacturer` while inheriting `description` from the part. -/
theorem C3_witness :
    c3conn.manufacturer = pyStrip ((some (pystr "OverrideCo")).getD (pystr "ACME"))
    ∧ c3conn.description = pyStrip (pystr "Part desc") := by
  have h := C3_part_inheritance.1 (pystr "J1") c3entry c3parts
    ⟨pystr "P1", pystr "PN-100", pystr "ACME", pystr "MPN-1", pystr "Part desc",
     [], [], none⟩ (by decide) c3conn (by decide)
  exact ⟨h.1, h.2.2.2.1⟩

theorem Res.isOk_iff {ε α : Type} (r : Res ε α) :
    r.isOk = true ↔ ∃ a, r = .ok a := by
  cases r <;> simp [Res.isOk]

/-- Predicate for a core entry in a WireViz group that the source can
process: an integer value of at least 1. -/
def coreIsPosInt : PinVal → Bool
  | .int c => decide (1 ≤ c)
  | .str _ => false

theorem coreIsPosInt_iff (v : PinVal) :
    coreIsPosInt v = true ↔ ∃ ci : Int, v = .int ci ∧ 1 ≤ ci := by
  cases v with
  | int c => simp [coreIsPosInt]
  | str s => simp [coreIsPosInt]

theorem Connection.make_ok_of {f cb t : PyStr} {core : Int}
    {fp tp fp' tp' : PinVal} {n s w : Option PyStr}
    (hf : pyStrip f ≠ []) (hcb : pyStrip cb ≠ []) (ht : pyStrip t ≠ [])
    (hcore : ¬ core < 0)
    (hfp : normalize_pin fp = .ok fp') (htp : normalize_pin tp = .ok tp') :
    Connection.make f fp cb core t tp n s w
      = .ok ⟨pyStrip f, fp', pyStrip cb, core, pyStrip t, tp',
             stripOptional n, stripOptional s, stripOptional w⟩ := by
  unfold Connection.make
  rw [if_neg hf, if_neg hcb, if_neg ht, if_neg hcore, hfp]
  simp only [Res.ok_bind]
  rw [htp]
  simp only [Res.ok_bind]

theorem buildGroupConnections_ok (f w t : PyStr) (cable : Option Cable)
    (hf : pyStrip f ≠ []) (hw : pyStrip w ≠ []) (ht : pyStrip t ≠ []) :
    ∀ triples : List (PinVal × PinVal × PinVal),
    (∀ x ∈ triples, coreIsPosInt x.2.1 = true
      ∧ (normalize_pin x.1).isOk = true ∧ (normalize_pin x.2.2).isOk = true) →
    ∃ conns, buildGroupConnections f w cable t triples = .ok conns
      ∧ conns.length = triples.length
      ∧ (∀ j x conn, triples.get? j = some x → conns.get? j = some conn →
          conn.from_connector = pyStrip f ∧ conn.cable = pyStrip w
          ∧ conn.to_connector = pyStrip t
          ∧ (∀ ci : Int, x.2.1 = .int ci → conn.core = ci - 1)
          ∧ normalize_pin x.1 = .ok conn.from_pin
          ∧ normalize_pin x.2.2 = .ok conn.to_pin) := by
  intro triples
  induction triples with
  | nil =>
      intro _
      refine ⟨[], rfl, rfl, ?_⟩
      intro j x conn hx
      simp at hx
  | cons head rest ih =>
      intro hall
      obtain ⟨fp, cv, tp⟩ := head
      obtain ⟨hcore, hfpok, htpok⟩ := hall (fp, cv, tp) (List.mem_cons_self _ _)
      obtain ⟨ci, rfl, hci⟩ := (coreIsPosInt_iff cv).mp hcore
      obtain ⟨fp', hfp'⟩ := (Res.isOk_iff _).mp hfpok
      obtain ⟨tp', htp'⟩ := (Res.isOk_iff _).mp htpok
      obtain ⟨restConns, hrest, hlen, hidx⟩ :=
        ih fun x hx => hall x (List.mem_cons_of_mem _ hx)
      refine ⟨⟨pyStrip f, fp', pyStrip w, ci - 1, pyStrip t, tp', none, none,
        stripOptional (wirevizCoreLabel cable ci)⟩ :: restConns, ?_, ?_, ?_⟩
      · unfold buildGroupConnections
        simp only [Res.ok_bind]
        rw [Connection.make_ok_of hf hw ht (by omega) hfp' htp']
        simp only [Res.ok_bind]
        rw [hrest]
        rfl
      · simp [hlen]
      · intro j x conn hx hconn
        cases j with
        | zero =>
            simp only [List.get?] at hx hconn
            cases hx
            cases hconn
            exact ⟨rfl, rfl, rfl, fun ci' hci' => by cases hci'; rfl, hfp', htp'⟩
        | succ j' =>
            simp only [List.get?] at hx hconn
            exact hidx j' x conn hx hconn

theorem zip3_length {α β γ : Type} :
    ∀ (a : List α) (b : List β) (c : List γ),
      (zip3 a b c).length = min (min a.length b.length) c.length := by
  intro a
  induction a with
  | nil => intro b c; cases b <;> cases c <;> simp [zip3]
  | cons x xs ih =>
      intro b c
      cases b with
      | nil => simp [zip3]
      | cons y ys =>
          cases c with
          | nil => simp [zip3]
          | cons z zs =>
              simp only [zip3, List.length_cons, ih]
              omega

theorem zip3_map_same {α β₁ β₂ β₃ : Type} (f1 : α → β₁) (f2 : α → β₂)
    (f3 : α → β₃) : ∀ l : List α,
      zip3 (l.map f1) (l.map f2) (l.map f3)
        = l.map fun x => (f1 x, f2 x, f3 x) := by
  intro l
  induction l with
  | nil => rfl
  | cons x xs ih => simp [zip3, ih]

theorem deriveGroup_single (cables : List (PyStr × Cable)) (f w t : PyStr)
    (fpins cores tpins : List PinVal)
    (hw_in : (dictGet? cables w).isSome = true)
    (ht_out : dictGet? cables t = none)
    (hwne : w ≠ []) (htne : t ≠ []) :
    deriveGroupConnections cables
        [[(f, .many fpins)], [(w, .many cores)], [(t, .many tpins)]]
      = buildGroupConnections f w (dictGet? cables w) t (zip3 fpins cores tpins) := by
  unfold deriveGroupConnections
  simp only [List.length_cons, List.length_nil]
  rw [if_neg (by omega)]
  simp only [List.flatMap_cons, List.flatMap_nil, List.map_cons, List.map_nil,
    RawPins.toList, List.append_nil, List.cons_append, List.nil_append,
    List.length_cons, List.length_nil]
  rw [if_neg (by omega)]
  simp only [classifyElements, hw_in, if_pos, ht_out, Option.isSome_none,
    Bool.false_eq_true, if_neg, pyTruthy]
  have hwb : (w == ([] : List Nat)) = false := by
    simp [hwne]
  have htb : (t == ([] : List Nat)) = false := by
    simp [htne]
  simp [hwb, htb, Option.getD]

/-- C10: in the WireViz-native connections path, when the from-side pin
list, the cable's core-number list and the to-side pin list have
different lengths, the derived connections are truncated to the shortest
of the three lists: the derivation succeeds (never raising) and produces
exactly `min(len(from_pins), len(cores), len(to_pins))` connections, the
positions beyond the shortest list being dropped silently. -/
theorem C10_wireviz_truncates_to_shortest
    (cables : List (PyStr × Cable)) (f w t : PyStr)
    (fpins cores tpins : List PinVal)
    (hwin : (dictGet? cables w).isSome = true)
    (htout : dictGet? cables t = none)
    (hf : pyStrip f ≠ []) (hw : pyStrip w ≠ []) (ht : pyStrip t ≠ [])
    (hall : ∀ x ∈ zip3 fpins cores tpins, coreIsPosInt x.2.1 = true
      ∧ (normalize_pin x.1).isOk = true ∧ (normalize_pin x.2.2).isOk = true) :
    ∃ conns, deriveConnectionsFromWireviz
        [[[(f, .many fpins)], [(w, .many cores)], [(t, .many tpins)]]] cables
        = .ok conns
      ∧ conns.length = min (min fpins.length cores.length) tpins.length := by
  have hwne : w ≠ [] := fun e => hw (by rw [e]; rfl)
  have htne : t ≠ [] := fun e => ht (by rw [e]; rfl)
  obtain ⟨conns, hok, hlen, _⟩ := buildGroupConnections_ok f w t
    (dictGet? cables w) hf hw ht (zip3 fpins cores tpins) hall
  refine ⟨conns, ?_, by rw [hlen, zip3_length]⟩
  have hstep : deriveConnectionsFromWireviz
      [[[(f, .many fpins)], [(w, .many cores)], [(t, .many tpins)]]] cables
      = (deriveGroupConnections cables
          [[(f, .many fpins)], [(w, .many cores)], [(t, .many tpins)]]).bind
            fun cs => .ok (cs ++ []) := rfl
  rw [hstep, deriveGroup_single cables f w t fpins cores tpins hwin htout hwne htne,
    hok]
  simp [Res.bind]

/-- C10 witness: truncation applied to a group whose three lists have
lengths 3, 2 and 1. -/
theorem C10_witness :
    ∃ conns, deriveConnectionsFromWireviz
        [[[(pystr "J1", .many [.int 1, .int 2, .int 3])],
          [(pystr "W1", .many [.int 1, .int 2])],
          [(pystr "J2", .many [.int 1])]]]
        [(pystr "W1", ⟨pystr "W1", pystr "PN-W1", pystr "M", pystr "X",
            pystr "D", 3, [], pystr "22 AWG", ⟨1, pystr "m"⟩, none, [], [],
            none, none⟩)]
        = .ok conns
      ∧ conns.length = min (min 3 2) 1 :=
  C10_wireviz_truncates_to_shortest
    [(pystr "W1", ⟨pystr "W1", pystr "PN-W1", pystr "M", pystr "X",
        pystr "D", 3, [], pystr "22 AWG", ⟨1, pystr "m"⟩, none, [], [],
        none, none⟩)]
    (pystr "J1") (pystr "W1") (pystr "J2")
    [.int 1, .int 2, .int 3] [.int 1, .int 2] [.int 1]
    (by rfl) (by rfl) (by decide) (by decide) (by decide) (by decide)

/-- Projection of a connection onto the fields compared by the round-trip
property. -/
def connTuple (c : Connection) : PyStr × PinVal × PyStr × Int × PyStr × PinVal :=
  (c.from_connector, c.from_pin, c.cable, c.core, c.to_connector, c.to_pin)

/-- The `connection_info` entries describing the same wiring as a WireViz
group: one entry per (pin, 1-based core) pair, the same pin on both
ends. -/
def mkConnInfoEntries (f w t : PyStr) (l : List (PinVal × Int)) :
    List RawConnInfo :=
  l.map fun pc => ⟨some f, some pc.1, some w, some pc.2, some t, none, none⟩

theorem parseCI_vs_build (f w t : PyStr) (cable : Option Cable)
    (hf : pyStrip f ≠ []) (hw : pyStrip w ≠ []) (ht : pyStrip t ≠ []) :
    ∀ l : List (PinVal × Int),
    (∀ pc ∈ l, 1 ≤ pc.2 ∧ (normalize_pin pc.1).isOk = true) →
    ∃ l1 l2, parseConnectionInfo (mkConnInfoEntries f w t l) = .ok l1
      ∧ buildGroupConnections f w cable t
          (l.map fun pc => (pc.1, PinVal.int pc.2, pc.1)) = .ok l2
      ∧ l1.map connTuple = l2.map connTuple := by
  intro l
  induction l with
  | nil =>
      intro _
      exact ⟨[], [], rfl, rfl, rfl⟩
  | cons head rest ih =>
      intro hall
      obtain ⟨p, ci⟩ := head
      obtain ⟨hci, hpok⟩ := hall (p, ci) (List.mem_cons_self _ _)
      obtain ⟨p', hp'⟩ := (Res.isOk_iff _).mp hpok
      obtain ⟨l1, l2, hl1, hl2, htup⟩ :=
        ih fun pc hpc => hall pc (List.mem_cons_of_mem _ hpc)
      refine ⟨⟨pyStrip f, p', pyStrip w, ci - 1, pyStrip t, p',
          stripOptional none, stripOptional none, stripOptional none⟩ :: l1,
        ⟨pyStrip f, p', pyStrip w, ci - 1, pyStrip t, p',
          stripOptional none, stripOptional none,
          stripOptional (wirevizCoreLabel cable ci)⟩ :: l2, ?_, ?_, ?_⟩
      · show parseConnectionInfo
          (⟨some f, some p, some w, some ci, some t, none, none⟩ ::
            mkConnInfoEntries f w t rest) = _
        unfold parseConnectionInfo
        simp only [Option.getD_some]
        rw [if_pos (by omega)]
        rw [Connection.make_ok_of hf hw ht (by omega) hp' hp']
        simp only [Res.ok_bind]
        rw [hl1]
        rfl
      · show buildGroupConnections f w cable t
          ((p, PinVal.int ci, p) :: rest.map fun pc => (pc.1, PinVal.int pc.2, pc.1))
            = _
        unfold buildGroupConnections
        simp only [Res.ok_bind]
        rw [Connection.make_ok_of hf hw ht (by omega) hp' hp']
        simp only [Res.ok_bind]
        rw [hl2]
        rfl
      · simp only [List.map_cons, htup]
        rfl

/-- C5: parsing a `connection_info`-style input and a WireViz-native
`connections`-style input describing the same wiring — same endpoints,
the same pin on both ends per the `connection_info` semantics, and the
same 1-based core numbers — produces equivalent connection lists: the
same (from_connector, from_pin, cable, core, to_connector, to_pin)
tuples, for any cables table resolving the shared cable id. -/
theorem C5_connection_paths_equivalent
    (cables : List (PyStr × Cable)) (f w t : PyStr)
    (pincores : List (PinVal × Int))
    (hwin : (dictGet? cables w).isSome = true)
    (htout : dictGet? cables t = none)
    (hf : pyStrip f ≠ []) (hw : pyStrip w ≠ []) (ht : pyStrip t ≠ [])
    (hall : ∀ pc ∈ pincores, 1 ≤ pc.2 ∧ (normalize_pin pc.1).isOk = true) :
    ∃ l1 l2, parseConnectionInfo (mkConnInfoEntries f w t pincores) = .ok l1
      ∧ deriveConnectionsFromWireviz
          [[[(f, .many (pincores.map Prod.fst))],
            [(w, .many (pincores.map fun pc => PinVal.int pc.2))],
            [(t, .many (pincores.map Prod.fst))]]] cables = .ok l2
      ∧ l1.map connTuple = l2.map connTuple := by
  have hwne : w ≠ [] := fun e => hw (by rw [e]; rfl)
  have htne : t ≠ [] := fun e => ht (by rw [e]; rfl)
  obtain ⟨l1, l2, hl1, hl2, htup⟩ :=
    parseCI_vs_build f w t (dictGet? cables w) hf hw ht pincores hall
  refine ⟨l1, l2, hl1, ?_, htup⟩
  have hstep : deriveConnectionsFromWireviz
      [[[(f, .many (pincores.map Prod.fst))],
        [(w, .many (pincores.map fun pc => PinVal.int pc.2))],
        [(t, .many (pincores.map Prod.fst))]]] cables
      = (deriveGroupConnections cables
          [[(f, .many (pincores.map Prod.fst))],
           [(w, .many (pincores.map fun pc => PinVal.int pc.2))],
           [(t, .many (pincores.map Prod.fst))]]).bind
            fun cs => .ok (cs ++ []) := rfl
  rw [hstep, deriveGroup_single cables f w t _ _ _ hwin htout hwne htne,
    zip3_map_same, hl2]
  simp [Res.bind]

/-- C5 witness: the equivalence applied to two pins with core numbers 1
and 2. -/
theorem C5_witness :
    ∃ l1 l2, parseConnectionInfo
        (mkConnInfoEntries (pystr "J1") (pystr "W1") (pystr "J2")
          [(.int 1, 1), (.int 2, 2)]) = .ok l1
      ∧ deriveConnectionsFromWireviz
          [[[(pystr "J1", .many ([(PinVal.int 1, (1 : Int)), (.int 2, 2)].map Prod.fst))],
            [(pystr "W1", .many ([(PinVal.int 1, (1 : Int)), (.int 2, 2)].map
                fun pc => PinVal.int pc.2))],
            [(pystr "J2", .many ([(PinVal.int 1, (1 : Int)), (.int 2, 2)].map Prod.fst))]]]
          [(pystr "W1", ⟨pystr "W1", pystr "PN-W1", pystr "M", pystr "X",
              pystr "D", 2, [], pystr "22 AWG", ⟨1, pystr "m"⟩, none, [], [],
              none, none⟩)] = .ok l2
      ∧ l1.map connTuple = l2.map connTuple :=
  C5_connection_paths_equivalent
    [(pystr "W1", ⟨pystr "W1", pystr "PN-W1", pystr "M", pystr "X",
        pystr "D", 2, [], pystr "22 AWG", ⟨1, pystr "m"⟩, none, [], [],
        none, none⟩)]
    (pystr "J1") (pystr "W1") (pystr "J2") [(.int 1, 1), (.int 2, 2)]
    (by rfl) (by rfl) (by decide) (by decide) (by decide) (by decide)

@[simp] theorem Res.mapError_ok {ε ε' α : Type} (f : ε → ε') (a : α) :
    Res.mapError f (Res.ok a : Res ε α) = .ok a := rfl

@[simp] theorem Res.mapError_error {ε ε' α : Type} (f : ε → ε') (e : ε) :
    Res.mapError f (Res.error e : Res ε α) = .error (f e) := rfl

theorem HarnessDocument.make_connections {metadata parts connectors cables
    connections accessories notes : _} {d : HarnessDocument}
    (h : HarnessDocument.make metadata parts connectors cables connections
      accessories notes = .ok d) : d.connections = connections := by
  unfold HarnessDocument.make at h
  split at h
  · cases h
    rfl
  · cases h

/-- The spec's two-connector/one-cable scenario as a raw document:
metadata, connectors `J1`/`J2` with `pincount: 2`, cable `W1` with
`wirecount: 2` and colors `RD`/`BK`, and a two-entry `connection_info`
with 1-based cores 1 and 2. -/
def c2raw : RawDoc :=
  { metadata := some ⟨some (pystr "WH-1"), some (pystr "T"), some (pystr "A"),
      some (pystr "2024-01-01")⟩
    parts := []
    connectors :=
      [(pystr "J1", ⟨none, none, none, none, none, [], none, [], none, none,
          [], some 2, none⟩),
       (pystr "J2", ⟨none, none, none, none, none, [], none, [], none, none,
          [], some 2, none⟩)]
    cables :=
      [(pystr "W1", ⟨none, none, none, none, none, [], none, [],
          [pystr "RD", pystr "BK"], [], some 2, none, none, none, none⟩)]
    connection_info := some
      [⟨some (pystr "J1"), some (.int 1), some (pystr "W1"), some 1,
        some (pystr "J2"), none, none⟩,
       ⟨some (pystr "J1"), some (.int 2), some (pystr "W1"), some 2,
        some (pystr "J2"), none, none⟩]
    connections := none
    accessories := .list []
    notes := none }

/-- C2: the claim states that a `connection_info` key drives the
connection strategy (priority over `connections`), that each entry's
1-based core is converted to 0-based with the single pin value reused on
both ends, and that the spec's concrete scenario parses to a document
with 2 connectors, 1 cable and cores `[0, 1]`.  The first two parts hold
of the code; the scenario itself does not parse: the connector fallback
sets `mpn = ""` and the `Connector` model rejects an empty `mpn`, so the
parse raises a validation error instead of producing a document. -/
theorem C2_connection_info_strategy :
    (∀ (raw_data : RawDoc) (l : List RawConnInfo) (doc : HarnessDocument),
      raw_data.connection_info = some l →
      parseHarnessData raw_data = .ok doc →
      ∃ conns, parseConnectionInfo l = .ok conns ∧ doc.connections = conns)
    ∧ (∀ (e : RawConnInfo) (c : Int), e.core = some c → 1 ≤ c →
        ∀ conns, parseConnectionInfo [e] = .ok conns →
          ∃ conn, conns = [conn] ∧ conn.core = c - 1
            ∧ conn.to_pin = conn.from_pin)
    ∧ parseHarnessData c2raw = .error [pystr "mpn cannot be empty"] := by
  refine ⟨?_, ?_, by decide⟩
  · intro raw_data l doc hci hok
    unfold parseHarnessData at hok
    cases hm : raw_data.metadata with
    | none => rw [hm] at hok; cases hok
    | some rawMeta =>
        rw [hm] at hok
        dsimp only [] at hok
        cases h1 : parseMetadata rawMeta with
        | error e => rw [h1] at hok; cases hok
        | ok metadata =>
            rw [h1] at hok
            simp only [Res.ok_bind] at hok
            cases h2 : parseParts raw_data.parts with
            | error e => rw [h2] at hok; cases hok
            | ok parts =>
                rw [h2] at hok
                simp only [Res.ok_bind] at hok
                cases h3 : parseConnectors raw_data.connectors parts with
                | error e => rw [h3] at hok; cases hok
                | ok connectors =>
                    rw [h3] at hok
                    simp only [Res.ok_bind] at hok
                    cases h4 : parseCables raw_data.cables parts with
                    | error e => rw [h4] at hok; cases hok
                    | ok cables =>
                        rw [h4] at hok
                        simp only [Res.ok_bind] at hok
                        rw [hci] at hok
                        dsimp only [] at hok
                        cases h5 : parseConnectionInfo l with
                        | error e => rw [h5] at hok; cases hok
                        | ok conns =>
                            rw [h5] at hok
                            simp only [Res.ok_bind] at hok
                            cases h6 : parseAccessories raw_data.accessories parts with
                            | error e => rw [h6] at hok; cases hok
                            | ok accessories =>
                                rw [h6] at hok
                                simp only [Res.ok_bind, Res.pure_eq,
                                  Res.mapError_ok] at hok
                                exact ⟨conns, rfl,
                                  HarnessDocument.make_connections hok⟩
  · intro e c hc hcpos conns h
    unfold parseConnectionInfo at h
    rw [hc] at h
    simp only [Option.getD_some] at h
    rw [if_pos (by omega)] at h
    cases hmk : Connection.make (e.from_.getD []) (e.pin.getD (.int 1))
        (e.cable.getD []) (c - 1) (e.to_.getD []) (e.pin.getD (.int 1))
        e.notes e.label e.label with
    | error err => rw [hmk] at h; cases h
    | ok conn =>
        rw [hmk] at h
        simp only [Res.ok_bind] at h
        cases h
        obtain ⟨fp, tp, hfp, htp, hconn⟩ := connection_make_ok hmk
        refine ⟨conn, rfl, ?_, ?_⟩
        · rw [hconn]
        · have : fp = tp := Res.ok.inj (hfp.symm.trans htp)
          rw [hconn]
          exact this.symm

/-- Raw document used by the C2 witness: both `connection_info` (empty)
and `connections` keys are present; the empty component maps make every
stage succeed. -/
def c2okraw : RawDoc :=
  { metadata := some ⟨some (pystr "WH-2"), some (pystr "T"), some (pystr "A"),
      some (pystr "2024-01-01")⟩
    parts := []
    connectors := []
    cables := []
    connection_info := some []
    connections := some [[[(pystr "J1", .many [.int 1])]]]
    accessories := .list []
    notes := none }

/-- The document `c2okraw` parses to. -/
def c2okDoc : HarnessDocument :=
  ⟨⟨pystr "WH-2", pystr "T", pystr "A", pystr "2024-01-01"⟩, [], [], [], [], [],
   none⟩

/-- C2 witness: the priority clause applied to a concrete document
carrying both keys, and the per-entry clause applied to a concrete entry
with core 1. -/
theorem C2_witness :
    (∃ conns, parseConnectionInfo [] = .ok conns ∧ c2okDoc.connections = conns)
    ∧ (∃ conn, ([⟨pystr "J1", .int 1, pystr "W1", 0, pystr "J2", .int 1,
          none, none, none⟩] : List Connection) = [conn] ∧ conn.core = 1 - 1
        ∧ conn.to_pin = conn.from_pin) := by
  constructor
  · exact C2_connection_info_strategy.1 c2okraw [] c2okDoc rfl (by decide)
  · exact C2_connection_info_strategy.2.1
      ⟨some (pystr "J1"), some (.int 1), some (pystr "W1"), some 1,
        some (pystr "J2"), none, none⟩ 1 rfl (by decide)
      [⟨pystr "J1", .int 1, pystr "W1", 0, pystr "J2", .int 1, none, none, none⟩]
      (by decide)

/-!
BOM accumulator lemmas for the extraction theorem.
-/

/-- Quantity accumulated for part number `p` (0 when absent). -/
def accQty (m : List (PyStr × BOMEntry)) (p : PyStr) : ℚ :=
  ((dictGet? m p).map BOMEntry.quantity).getD 0

/-- Reference designators accumulated for part number `p`. -/
def accRefs (m : List (PyStr × BOMEntry)) (p : PyStr) : List PyStr :=
  ((dictGet? m p).map BOMEntry.references).getD []

/-- Number of connectors with primary part number `p`. -/
def connectorPnCount (connectors : List (PyStr × Connector)) (p : PyStr) : Nat :=
  (connectors.filter fun kv => kv.2.primary_pn == p).length

/-- Reference designators of the connectors with primary part number `p`,
in document order. -/
def connectorRefs (connectors : List (PyStr × Connector)) (p : PyStr) : List PyStr :=
  (connectors.filter fun kv => kv.2.primary_pn == p).map Prod.fst

/-- Sum of the lengths of the cables with primary part number `p`. -/
def cableLenSum (cables : List (PyStr × Cable)) (p : PyStr) : ℚ :=
  ((cables.filter fun kv => kv.2.primary_pn == p).map
    fun kv => kv.2.length.value).sum

/-- Reference designators of the cables with primary part number `p`. -/
def cableRefs (cables : List (PyStr × Cable)) (p : PyStr) : List PyStr :=
  (cables.filter fun kv => kv.2.primary_pn == p).map Prod.fst

/-- Sum of the quantities of the accessories whose part has primary part
number `p`. -/
def accessoryQtySum (accessories : List Accessory) (p : PyStr) : ℚ :=
  ((accessories.filter fun a => a.part.primary_pn == p).map
    fun a => a.quantity.value).sum

/-- Whether some generic part carries primary part number `p`. -/
def hasPartPn (parts : List (PyStr × Part)) (p : PyStr) : Bool :=
  parts.any fun kv => kv.2.primary_pn == p

/-- The reference contributed by the first generic part with primary part
number `p` (empty if none). -/
def partFirstRef (parts : List (PyStr × Part)) (p : PyStr) : List PyStr :=
  match parts.filter fun kv => kv.2.primary_pn == p with
  | [] => []
  | kv :: _ => [kv.1]

/-- Whether part number `p` is captured by the connector, cable or
accessory passes (so the generic-parts pass will skip it). -/
def bomCapturedEarly (document : HarnessDocument) (p : PyStr) : Bool :=
  (document.connectors.any fun kv => kv.2.primary_pn == p)
  || (document.cables.any fun kv => kv.2.primary_pn == p)
  || (document.accessories.any fun a => a.part.primary_pn == p)

/-- Whether the generic-parts pass emits a fresh row for `p`. -/
def bomPartFresh (document : HarnessDocument) (p : PyStr) : Bool :=
  !(bomCapturedEarly document p) && hasPartPn document.parts p

theorem accQty_bump (m : List (PyStr × BOMEntry)) (pn p : PyStr)
    (init : BOMEntry) (hinit : init.quantity = 0) (δ : ℚ)
    (f : BOMEntry → BOMEntry) (hf : ∀ e, (f e).quantity = e.quantity + δ) :
    accQty (dictModify (if (dictGet? m pn).isNone then dictSet m pn init else m)
        pn f) p
      = accQty m p + (if pn = p then δ else 0) := by
  by_cases hpn : pn = p
  · subst hpn
    unfold accQty
    rw [dictGet?_dictModify, if_pos rfl]
    cases hget : dictGet? m pn with
    | none => simp [dictGet?_dictSet, hf, hinit]
    | some e => simp [hf, hget]
  · unfold accQty
    rw [dictGet?_dictModify, if_neg hpn]
    by_cases hnone : (dictGet? m pn).isNone
    · rw [if_pos hnone, dictGet?_dictSet, if_neg hpn]
      simp [hpn]
    · rw [if_neg hnone]
      simp [hpn]

theorem accRefs_bump (m : List (PyStr × BOMEntry)) (pn p : PyStr)
    (init : BOMEntry) (hinit : init.references = []) (newRefs : List PyStr)
    (f : BOMEntry → BOMEntry)
    (hf : ∀ e, (f e).references = e.references ++ newRefs) :
    accRefs (dictModify (if (dictGet? m pn).isNone then dictSet m pn init else m)
        pn f) p
      = accRefs m p ++ (if pn = p then newRefs else []) := by
  by_cases hpn : pn = p
  · subst hpn
    unfold accRefs
    rw [dictGet?_dictModify, if_pos rfl]
    cases hget : dictGet? m pn with
    | none => simp [dictGet?_dictSet, hf, hinit]
    | some e => simp [hf, hget]
  · unfold accRefs
    rw [dictGet?_dictModify, if_neg hpn]
    by_cases hnone : (dictGet? m pn).isNone
    · rw [if_pos hnone, dictGet?_dictSet, if_neg hpn]
      simp [hpn]
    · rw [if_neg hnone]
      simp [hpn]

theorem accPresent_bump (m : List (PyStr × BOMEntry)) (pn p : PyStr)
    (init : BOMEntry) (f : BOMEntry → BOMEntry) :
    (dictGet? (dictModify
        (if (dictGet? m pn).isNone then dictSet m pn init else m) pn f) p).isSome
      = ((dictGet? m p).isSome || (pn == p)) := by
  by_cases hpn : pn = p
  · subst hpn
    rw [dictGet?_dictModify, if_pos rfl]
    cases hget : dictGet? m pn with
    | none => simp [dictGet?_dictSet]
    | some e => simp [hget]
  · rw [dictGet?_dictModify, if_neg hpn]
    have hbe : (pn == p) = false := by simp [hpn]
    by_cases hnone : (dictGet? m pn).isNone
    · rw [if_pos hnone, dictGet?_dictSet, if_neg hpn]
      simp [hbe]
    · rw [if_neg hnone]
      simp [hbe]

theorem nodup_bump (m : List (PyStr × BOMEntry)) (pn : PyStr)
    (init : BOMEntry) (f : BOMEntry → BOMEntry)
    (h : (m.map Prod.fst).Nodup) :
    ((dictModify (if (dictGet? m pn).isNone then dictSet m pn init else m)
        pn f).map Prod.fst).Nodup := by
  apply nodup_keys_dictModify
  by_cases hnone : (dictGet? m pn).isNone
  · rw [if_pos hnone]
    exact nodup_keys_dictSet m pn init h
  · rw [if_neg hnone]
    exact h

theorem processConnectors_cons (m : List (PyStr × BOMEntry)) (cid : PyStr)
    (c : Connector) (rest : List (PyStr × Connector)) :
    processConnectors m ((cid, c) :: rest)
      = processConnectors (dictModify
          (if (dictGet? m c.primary_pn).isNone
           then dictSet m c.primary_pn ⟨0, pystr "pcs", c.manufacturer, c.mpn,
             c.description, c.alternates.map altStr, pystr "connector", []⟩
           else m)
          c.primary_pn
          fun e => { e with quantity := e.quantity + 1, references := e.references ++ [cid] }) rest := rfl

theorem processCables_cons (m : List (PyStr × BOMEntry)) (cid : PyStr)
    (c : Cable) (rest : List (PyStr × Cable)) :
    processCables m ((cid, c) :: rest)
      = processCables (dictModify
          (if (dictGet? m c.primary_pn).isNone
           then dictSet m c.primary_pn ⟨0, c.length.unit, c.manufacturer, c.mpn,
             c.description, c.alternates.map altStr, pystr "cable", []⟩
           else m)
          c.primary_pn
          fun e => { e with quantity := e.quantity + c.length.value, references := e.references ++ [cid] }) rest := rfl

theorem processAccessories_cons (m : List (PyStr × BOMEntry)) (a : Accessory)
    (rest : List Accessory) :
    processAccessories m (a :: rest)
      = processAccessories (dictModify
          (if (dictGet? m a.part.primary_pn).isNone
           then dictSet m a.part.primary_pn ⟨0, a.quantity.unit,
             a.part.manufacturer, a.part.mpn, a.part.description,
             a.part.alternates.map altStr, pystr "accessory", []⟩
           else m)
          a.part.primary_pn
          fun e => { e with quantity := e.quantity + a.quantity.value }) rest := rfl

theorem processGenericParts_cons (m : List (PyStr × BOMEntry)) (pid : PyStr)
    (prt : Part) (rest : List (PyStr × Part)) :
    processGenericParts m ((pid, prt) :: rest)
      = processGenericParts
          (if (dictGet? m prt.primary_pn).isSome then m
           else dictSet m prt.primary_pn ⟨1, pystr "pcs", prt.manufacturer,
             prt.mpn, prt.description, prt.alternates.map altStr, pystr "part",
             [pid]⟩) rest := rfl

theorem processConnectors_qty : ∀ (l : List (PyStr × Connector))
    (m : List (PyStr × BOMEntry)) (p : PyStr),
    accQty (processConnectors m l) p = accQty m p + (connectorPnCount l p : ℚ) := by
  intro l
  induction l with
  | nil => intro m p; simp [processConnectors, connectorPnCount]
  | cons kv rest ih =>
      intro m p
      obtain ⟨cid, c⟩ := kv
      rw [processConnectors_cons, ih,
        accQty_bump m c.primary_pn p _ rfl 1 _ (fun e => rfl)]
      unfold connectorPnCount
      by_cases hp : c.primary_pn = p
      · simp only [List.filter_cons, beq_iff_eq, hp, decide_True, if_true,
          List.length_cons]
        push_cast
        ring
      · have hbe : (c.primary_pn == p) = false := by simp [hp]
        simp only [List.filter_cons, hbe, Bool.false_eq_true, if_neg, if_false,
          cond_false]
        simp [hp]

theorem processConnectors_refs : ∀ (l : List (PyStr × Connector))
    (m : List (PyStr × BOMEntry)) (p : PyStr),
    accRefs (processConnectors m l) p = accRefs m p ++ connectorRefs l p := by
  intro l
  induction l with
  | nil => intro m p; simp [processConnectors, connectorRefs]
  | cons kv rest ih =>
      intro m p
      obtain ⟨cid, c⟩ := kv
      rw [processConnectors_cons, ih,
        accRefs_bump m c.primary_pn p _ rfl [cid] _ (fun e => rfl)]
      unfold connectorRefs
      by_cases hp : c.primary_pn = p
      · simp [List.filter_cons, hp]
      · have hbe : (c.primary_pn == p) = false := by simp [hp]
        simp [List.filter_cons, hbe, hp]

theorem processConnectors_present : ∀ (l : List (PyStr × Connector))
    (m : List (PyStr × BOMEntry)) (p : PyStr),
    (dictGet? (processConnectors m l) p).isSome
      = ((dictGet? m p).isSome || l.any fun kv => kv.2.primary_pn == p) := by
  intro l
  induction l with
  | nil => intro m p; simp [processConnectors]
  | cons kv rest ih =>
      intro m p
      obtain ⟨cid, c⟩ := kv
      rw [processConnectors_cons, ih, accPresent_bump]
      simp only [List.any_cons]
      cases hx : (dictGet? m p).isSome <;> cases hy : (c.primary_pn == p) <;>
        simp [hx, hy]

theorem processConnectors_nodup : ∀ (l : List (PyStr × Connector))
    (m : List (PyStr × BOMEntry)),
    (m.map Prod.fst).Nodup → ((processConnectors m l).map Prod.fst).Nodup := by
  intro l
  induction l with
  | nil => intro m h; exact h
  | cons kv rest ih =>
      intro m h
      obtain ⟨cid, c⟩ := kv
      rw [processConnectors_cons]
      exact ih _ (nodup_bump m c.primary_pn _ _ h)

theorem processCables_qty : ∀ (l : List (PyStr × Cable))
    (m : List (PyStr × BOMEntry)) (p : PyStr),
    accQty (processCables m l) p = accQty m p + cableLenSum l p := by
  intro l
  induction l with
  | nil => intro m p; simp [processCables, cableLenSum]
  | cons kv rest ih =>
      intro m p
      obtain ⟨cid, c⟩ := kv
      rw [processCables_cons, ih,
        accQty_bump m c.primary_pn p _ rfl c.length.value _ (fun e => rfl)]
      unfold cableLenSum
      by_cases hp : c.primary_pn = p
      · simp only [List.filter_cons, beq_iff_eq, hp, decide_True, if_true,
          List.map_cons, List.sum_cons]
        ring
      · have hbe : (c.primary_pn == p) = false := by simp [hp]
        simp [List.filter_cons, hbe, hp]

theorem processCables_refs : ∀ (l : List (PyStr × Cable))
    (m : List (PyStr × BOMEntry)) (p : PyStr),
    accRefs (processCables m l) p = accRefs m p ++ cableRefs l p := by
  intro l
  induction l with
  | nil => intro m p; simp [processCables, cableRefs]
  | cons kv rest ih =>
      intro m p
      obtain ⟨cid, c⟩ := kv
      rw [processCables_cons, ih,
        accRefs_bump m c.primary_pn p _ rfl [cid] _ (fun e => rfl)]
      unfold cableRefs
      by_cases hp : c.primary_pn = p
      · simp [List.filter_cons, hp]
      · have hbe : (c.primary_pn == p) = false := by simp [hp]
        simp [List.filter_cons, hbe, hp]

theorem processCables_present : ∀ (l : List (PyStr × Cable))
    (m : List (PyStr × BOMEntry)) (p : PyStr),
    (dictGet? (processCables m l) p).isSome
      = ((dictGet? m p).isSome || l.any fun kv => kv.2.primary_pn == p) := by
  intro l
  induction l with
  | nil => intro m p; simp [processCables]
  | cons kv rest ih =>
      intro m p
      obtain ⟨cid, c⟩ := kv
      rw [processCables_cons, ih, accPresent_bump]
      simp only [List.any_cons]
      cases hx : (dictGet? m p).isSome <;> cases hy : (c.primary_pn == p) <;>
        simp [hx, hy]

theorem processCables_nodup : ∀ (l : List (PyStr × Cable))
    (m : List (PyStr × BOMEntry)),
    (m.map Prod.fst).Nodup → ((processCables m l).map Prod.fst).Nodup := by
  intro l
  induction l with
  | nil => intro m h; exact h
  | cons kv rest ih =>
      intro m h
      obtain ⟨cid, c⟩ := kv
      rw [processCables_cons]
      exact ih _ (nodup_bump m c.primary_pn _ _ h)

theorem processAccessories_qty : ∀ (l : List Accessory)
    (m : List (PyStr × BOMEntry)) (p : PyStr),
    accQty (processAccessories m l) p = accQty m p + accessoryQtySum l p := by
  intro l
  induction l with
  | nil => intro m p; simp [processAccessories, accessoryQtySum]
  | cons a rest ih =>
      intro m p
      rw [processAccessories_cons, ih,
        accQty_bump m a.part.primary_pn p _ rfl a.quantity.value _ (fun e => rfl)]
      unfold accessoryQtySum
      by_cases hp : a.part.primary_pn = p
      · simp only [List.filter_cons, beq_iff_eq, hp, decide_True, if_true,
          List.map_cons, List.sum_cons]
        ring
      · have hbe : (a.part.primary_pn == p) = false := by simp [hp]
        simp [List.filter_cons, hbe, hp]

theorem processAccessories_refs : ∀ (l : List Accessory)
    (m : List (PyStr × BOMEntry)) (p : PyStr),
    accRefs (processAccessories m l) p = accRefs m p := by
  intro l
  induction l with
  | nil => intro m p; simp [processAccessories]
  | cons a rest ih =>
      intro m p
      rw [processAccessories_cons, ih,
        accRefs_bump m a.part.primary_pn p _ rfl [] _ (fun e => by simp)]
      simp

theorem processAccessories_present : ∀ (l : List Accessory)
    (m : List (PyStr × BOMEntry)) (p : PyStr),
    (dictGet? (processAccessories m l) p).isSome
      = ((dictGet? m p).isSome || l.any fun a => a.part.primary_pn == p) := by
  intro l
  induction l with
  | nil => intro m p; simp [processAccessories]
  | cons a rest ih =>
      intro m p
      rw [processAccessories_cons, ih, accPresent_bump]
      simp only [List.any_cons]
      cases hx : (dictGet? m p).isSome <;> cases hy : (a.part.primary_pn == p) <;>
        simp [hx, hy]

theorem processAccessories_nodup : ∀ (l : List Accessory)
    (m : List (PyStr × BOMEntry)),
    (m.map Prod.fst).Nodup → ((processAccessories m l).map Prod.fst).Nodup := by
  intro l
  induction l with
  | nil => intro m h; exact h
  | cons a rest ih =>
      intro m h
      rw [processAccessories_cons]
      exact ih _ (nodup_bump m a.part.primary_pn _ _ h)

theorem processGenericParts_qty : ∀ (l : List (PyStr × Part))
    (m : List (PyStr × BOMEntry)) (p : PyStr),
    accQty (processGenericParts m l) p
      = if (dictGet? m p).isSome then accQty m p
        else (if hasPartPn l p then 1 else 0) := by
  intro l
  induction l with
  | nil =>
      intro m p
      cases hget : dictGet? m p <;> simp [processGenericParts, hasPartPn, accQty, hget]
  | cons kv rest ih =>
      intro m p
      obtain ⟨pid, prt⟩ := kv
      rw [processGenericParts_cons]
      by_cases hpres : (dictGet? m prt.primary_pn).isSome
      · rw [if_pos hpres, ih]
        by_cases hp : (dictGet? m p).isSome
        · simp [hp]
        · have hne : (prt.primary_pn == p) = false := by
            by_cases he : prt.primary_pn = p
            · rw [he] at hpres
              exact absurd hpres (by simp [hp])
            · simp [he]
          simp only [hasPartPn, List.any_cons, hne, Bool.false_or]
      · rw [if_neg hpres, ih]
        by_cases hp : prt.primary_pn = p
        · subst hp
          have h1 : dictGet? (dictSet m prt.primary_pn ⟨1, pystr "pcs",
              prt.manufacturer, prt.mpn, prt.description,
              prt.alternates.map altStr, pystr "part", [pid]⟩) prt.primary_pn
              = some ⟨1, pystr "pcs", prt.manufacturer, prt.mpn, prt.description,
                prt.alternates.map altStr, pystr "part", [pid]⟩ := by
            rw [dictGet?_dictSet, if_pos rfl]
          rw [h1]
          simp only [Option.isSome_some, if_true, if_pos]
          have h2 : (dictGet? m prt.primary_pn).isSome = false := by
            simp [hpres]
          simp [accQty, h1, h2, hasPartPn, List.any_cons]
        · have h1 : dictGet? (dictSet m prt.primary_pn ⟨1, pystr "pcs",
              prt.manufacturer, prt.mpn, prt.description,
              prt.alternates.map altStr, pystr "part", [pid]⟩) p
              = dictGet? m p := by
            rw [dictGet?_dictSet, if_neg hp]
          rw [h1]
          have hne : (prt.primary_pn == p) = false := by simp [hp]
          by_cases hgp : (dictGet? m p).isSome
          · simp [hgp, accQty, h1]
          · have hor : (prt.primary_pn == p || rest.any fun kv => kv.2.primary_pn == p)
                = (rest.any fun kv => kv.2.primary_pn == p) := by
              rw [hne, Bool.false_or]
            simp only [hgp, if_false, accQty, h1, hasPartPn, List.any_cons, hor]

theorem processGenericParts_refs : ∀ (l : List (PyStr × Part))
    (m : List (PyStr × BOMEntry)) (p : PyStr),
    accRefs (processGenericParts m l) p
      = if (dictGet? m p).isSome then accRefs m p else partFirstRef l p := by
  intro l
  induction l with
  | nil =>
      intro m p
      cases hget : dictGet? m p <;>
        simp [processGenericParts, partFirstRef, accRefs, hget]
  | cons kv rest ih =>
      intro m p
      obtain ⟨pid, prt⟩ := kv
      rw [processGenericParts_cons]
      by_cases hpres : (dictGet? m prt.primary_pn).isSome
      · rw [if_pos hpres, ih]
        by_cases hp : (dictGet? m p).isSome
        · simp [hp]
        · have hne : (prt.primary_pn == p) = false := by
            by_cases he : prt.primary_pn = p
            · rw [he] at hpres
              exact absurd hpres (by simp [hp])
            · simp [he]
          simp only [partFirstRef, List.filter_cons, hne, Bool.false_eq_true,
            if_neg, if_false]
      · rw [if_neg hpres, ih]
        by_cases hp : prt.primary_pn = p
        · subst hp
          have h1 : dictGet? (dictSet m prt.primary_pn ⟨1, pystr "pcs",
              prt.manufacturer, prt.mpn, prt.description,
              prt.alternates.map altStr, pystr "part", [pid]⟩) prt.primary_pn
              = some ⟨1, pystr "pcs", prt.manufacturer, prt.mpn, prt.description,
                prt.alternates.map altStr, pystr "part", [pid]⟩ := by
            rw [dictGet?_dictSet, if_pos rfl]
          rw [h1]
          have h2 : (dictGet? m prt.primary_pn).isSome = false := by
            simp [hpres]
          simp [accRefs, h1, h2, partFirstRef, List.filter_cons]
        · have h1 : dictGet? (dictSet m prt.primary_pn ⟨1, pystr "pcs",
              prt.manufacturer, prt.mpn, prt.description,
              prt.alternates.map altStr, pystr "part", [pid]⟩) p
              = dictGet? m p := by
            rw [dictGet?_dictSet, if_neg hp]
          rw [h1]
          have hne : (prt.primary_pn == p) = false := by simp [hp]
          by_cases hgp : (dictGet? m p).isSome
          · simp [hgp, accRefs, h1]
          · simp [hgp, accRefs, h1, partFirstRef, List.filter_cons, hne]

theorem processGenericParts_present : ∀ (l : List (PyStr × Part))
    (m : List (PyStr × BOMEntry)) (p : PyStr),
    (dictGet? (processGenericParts m l) p).isSome
      = ((dictGet? m p).isSome || hasPartPn l p) := by
  intro l
  induction l with
  | nil => intro m p; simp [processGenericParts, hasPartPn]
  | cons kv rest ih =>
      intro m p
      obtain ⟨pid, prt⟩ := kv
      rw [processGenericParts_cons]
      by_cases hpres : (dictGet? m prt.primary_pn).isSome
      · rw [if_pos hpres, ih]
        by_cases hp : (dictGet? m p).isSome
        · simp [hp]
        · have hne : (prt.primary_pn == p) = false := by
            by_cases he : prt.primary_pn = p
            · rw [he] at hpres
              exact absurd hpres (by simp [hp])
            · simp [he]
          simp only [hasPartPn, List.any_cons, hne, Bool.false_or]
      · rw [if_neg hpres, ih]
        by_cases hp : prt.primary_pn = p
        · subst hp
          have h1 : dictGet? (dictSet m prt.primary_pn ⟨1, pystr "pcs",
              prt.manufacturer, prt.mpn, prt.description,
              prt.alternates.map altStr, pystr "part", [pid]⟩) prt.primary_pn
              = some ⟨1, pystr "pcs", prt.manufacturer, prt.mpn, prt.description,
                prt.alternates.map altStr, pystr "part", [pid]⟩ := by
            rw [dictGet?_dictSet, if_pos rfl]
          simp [h1, hasPartPn, List.any_cons]
        · have h1 : dictGet? (dictSet m prt.primary_pn ⟨1, pystr "pcs",
              prt.manufacturer, prt.mpn, prt.description,
              prt.alternates.map altStr, pystr "part", [pid]⟩) p
              = dictGet? m p := by
            rw [dictGet?_dictSet, if_neg hp]
          rw [h1]
          have hne : (prt.primary_pn == p) = false := by simp [hp]
          simp [hasPartPn, List.any_cons, hne]

theorem processGenericParts_nodup : ∀ (l : List (PyStr × Part))
    (m : List (PyStr × BOMEntry)),
    (m.map Prod.fst).Nodup → ((processGenericParts m l).map Prod.fst).Nodup := by
  intro l
  induction l with
  | nil => intro m h; exact h
  | cons kv rest ih =>
      intro m h
      obtain ⟨pid, prt⟩ := kv
      rw [processGenericParts_cons]
      by_cases hpres : (dictGet? m prt.primary_pn).isSome
      · rw [if_pos hpres]
        exact ih m h
      · rw [if_neg hpres]
        exact ih _ (nodup_keys_dictSet m prt.primary_pn _ h)

/-!
Assembly of the BOM pipeline facts.
-/

/-- The fully built accumulator of `_extract_bom_items` before sorting. -/
def bomAccum (document : HarnessDocument) : List (PyStr × BOMEntry) :=
  processGenericParts
    (processAccessories
      (processCables (processConnectors [] document.connectors) document.cables)
      document.accessories)
    document.parts

theorem bomAccum_present (document : HarnessDocument) (p : PyStr) :
    (dictGet? (bomAccum document) p).isSome
      = (bomCapturedEarly document p || hasPartPn document.parts p) := by
  unfold bomAccum bomCapturedEarly
  rw [processGenericParts_present, processAccessories_present,
    processCables_present, processConnectors_present]
  simp [dictGet?, Bool.or_assoc]

theorem bomAccum_qty (document : HarnessDocument) (p : PyStr) :
    accQty (bomAccum document) p
      = (connectorPnCount document.connectors p : ℚ)
        + cableLenSum document.cables p
        + accessoryQtySum document.accessories p
        + (if bomPartFresh document p then 1 else 0) := by
  have hpres3 : (dictGet? (processAccessories
      (processCables (processConnectors [] document.connectors) document.cables)
      document.accessories) p).isSome = bomCapturedEarly document p := by
    rw [processAccessories_present, processCables_present,
      processConnectors_present]
    simp [bomCapturedEarly, dictGet?, Bool.or_assoc]
  unfold bomAccum
  rw [processGenericParts_qty, hpres3]
  by_cases hcap : bomCapturedEarly document p = true
  · rw [if_pos hcap, processAccessories_qty, processCables_qty,
      processConnectors_qty]
    have hz : accQty ([] : List (PyStr × BOMEntry)) p = 0 := by
      simp [accQty, dictGet?]
    have hfresh : bomPartFresh document p = false := by
      simp [bomPartFresh, hcap]
    rw [hz, hfresh, zero_add]
    simp
  · rw [if_neg hcap]
    have hcap2 : bomCapturedEarly document p = false := by
      cases h : bomCapturedEarly document p
      · rfl
      · exact absurd h hcap
    have h3 : (document.connectors.any fun kv => kv.2.primary_pn == p) = false
        ∧ (document.cables.any fun kv => kv.2.primary_pn == p) = false
        ∧ (document.accessories.any fun a => a.part.primary_pn == p) = false := by
      have := hcap2
      unfold bomCapturedEarly at this
      simp only [Bool.or_eq_false_iff] at this
      exact ⟨this.1.1, this.1.2, this.2⟩
    have hconn : connectorPnCount document.connectors p = 0 := by
      unfold connectorPnCount
      rw [List.filter_eq_nil_iff.mpr]
      · rfl
      · intro a ha
        have := List.any_eq_false.mp h3.1 a ha
        simp [this]
    have hcab : cableLenSum document.cables p = 0 := by
      unfold cableLenSum
      rw [List.filter_eq_nil_iff.mpr]
      · rfl
      · intro a ha
        have := List.any_eq_false.mp h3.2.1 a ha
        simp [this]
    have hacc : accessoryQtySum document.accessories p = 0 := by
      unfold accessoryQtySum
      rw [List.filter_eq_nil_iff.mpr]
      · rfl
      · intro a ha
        have := List.any_eq_false.mp h3.2.2 a ha
        simp [this]
    have hfresh : bomPartFresh document p = hasPartPn document.parts p := by
      simp [bomPartFresh, hcap2]
    rw [hconn, hcab, hacc, hfresh]
    cases hh : hasPartPn document.parts p <;> simp [hh]

theorem bomAccum_refs (document : HarnessDocument) (p : PyStr) :
    accRefs (bomAccum document) p
      = connectorRefs document.connectors p ++ cableRefs document.cables p
        ++ (if bomCapturedEarly document p then []
            else partFirstRef document.parts p) := by
  have hpres3 : (dictGet? (processAccessories
      (processCables (processConnectors [] document.connectors) document.cables)
      document.accessories) p).isSome = bomCapturedEarly document p := by
    rw [processAccessories_present, processCables_present,
      processConnectors_present]
    simp [bomCapturedEarly, dictGet?, Bool.or_assoc]
  unfold bomAccum
  rw [processGenericParts_refs, hpres3]
  by_cases hcap : bomCapturedEarly document p = true
  · rw [if_pos hcap, if_pos hcap, processAccessories_refs, processCables_refs,
      processConnectors_refs]
    have hz : accRefs ([] : List (PyStr × BOMEntry)) p = [] := by
      simp [accRefs, dictGet?]
    rw [hz]
    simp
  · rw [if_neg hcap, if_neg hcap]
    have hcap2 : bomCapturedEarly document p = false := by
      cases h : bomCapturedEarly document p
      · rfl
      · exact absurd h hcap
    have h3 : (document.connectors.any fun kv => kv.2.primary_pn == p) = false
        ∧ (document.cables.any fun kv => kv.2.primary_pn == p) = false := by
      have := hcap2
      unfold bomCapturedEarly at this
      simp only [Bool.or_eq_false_iff] at this
      exact ⟨this.1.1, this.1.2⟩
    have hconn : connectorRefs document.connectors p = [] := by
      unfold connectorRefs
      rw [List.filter_eq_nil_iff.mpr]
      · rfl
      · intro a ha
        have := List.any_eq_false.mp h3.1 a ha
        simp [this]
    have hcab : cableRefs document.cables p = [] := by
      unfold cableRefs
      rw [List.filter_eq_nil_iff.mpr]
      · rfl
      · intro a ha
        have := List.any_eq_false.mp h3.2 a ha
        simp [this]
    rw [hconn, hcab]
    simp

theorem bomAccum_nodup (document : HarnessDocument) :
    ((bomAccum document).map Prod.fst).Nodup := by
  unfold bomAccum
  exact processGenericParts_nodup _ _ (processAccessories_nodup _ _
    (processCables_nodup _ _ (processConnectors_nodup _ _ (by simp))))

theorem dictGet?_isSome_iff_mem {V : Type} : ∀ (m : List (PyStr × V)) (p : PyStr),
    (dictGet? m p).isSome = true ↔ ∃ e, (p, e) ∈ m := by
  intro m
  induction m with
  | nil => intro p; simp [dictGet?]
  | cons kv rest ih =>
      intro p
      obtain ⟨k, v⟩ := kv
      by_cases h : k = p
      · subst h
        simp [dictGet?]
      · simp only [dictGet?, if_neg h, ih, List.mem_cons, Prod.mk.injEq]
        constructor
        · rintro ⟨e, he⟩
          exact ⟨e, Or.inr he⟩
        · rintro ⟨e, he | he⟩
          · exact absurd he.1.symm h
          · exact ⟨e, he⟩

theorem dictGet?_of_mem_nodup {V : Type} : ∀ (m : List (PyStr × V)) (p : PyStr)
    (e : V), (p, e) ∈ m → (m.map Prod.fst).Nodup → dictGet? m p = some e := by
  intro m
  induction m with
  | nil => intro p e hmem _; cases hmem
  | cons kv rest ih =>
      intro p e hmem hnd
      obtain ⟨k, v⟩ := kv
      simp only [List.map_cons, List.nodup_cons] at hnd
      rcases List.mem_cons.mp hmem with h | h
      · cases h
        simp [dictGet?]
      · have hk : k ≠ p := by
          intro hkp
          subst hkp
          exact hnd.1 (List.mem_map.mpr ⟨(k, e), h, rfl⟩)
        simpa [dictGet?, hk] using ih p e h hnd.2

theorem toBOMItems_map_pn : ∀ (l : List (PyStr × BOMEntry)) (i : Nat),
    (toBOMItems i l).map BOMItem.part_number = l.map Prod.fst := by
  intro l
  induction l with
  | nil => intro i; rfl
  | cons kv rest ih =>
      intro i
      obtain ⟨pn, e⟩ := kv
      simp [toBOMItems, ih]

theorem toBOMItems_mem : ∀ (l : List (PyStr × BOMEntry)) (i : Nat) (it : BOMItem),
    it ∈ toBOMItems i l → ∃ e, (it.part_number, e) ∈ l
      ∧ it.quantity = e.quantity ∧ it.unit = e.unit
      ∧ it.reference = joinComma e.references := by
  intro l
  induction l with
  | nil => intro i it h; cases h
  | cons kv rest ih =>
      intro i it h
      obtain ⟨pn, e⟩ := kv
      simp only [toBOMItems, List.mem_cons] at h
      rcases h with h1 | h1
      · subst h1
        exact ⟨e, List.mem_cons_self _ _, rfl, rfl, rfl⟩
      · obtain ⟨e2, hm, hq, hu, hr⟩ := ih (i + 1) it h1
        exact ⟨e2, List.mem_cons_of_mem _ hm, hq, hu, hr⟩

theorem toBOMItems_exists : ∀ (l : List (PyStr × BOMEntry)) (i : Nat)
    (pn : PyStr) (e : BOMEntry), (pn, e) ∈ l →
    ∃ it, it ∈ toBOMItems i l ∧ it.part_number = pn := by
  intro l
  induction l with
  | nil => intro i pn e h; cases h
  | cons kv rest ih =>
      intro i pn e h
      obtain ⟨pn0, e0⟩ := kv
      rcases List.mem_cons.mp h with h1 | h1
      · refine ⟨⟨i, e0.quantity, e0.unit, pn0, e0.manufacturer, e0.mpn,
          e0.description, e0.alternates, e0.category, joinComma e0.references⟩,
          ?_, ?_⟩
        · simp [toBOMItems]
        · cases h1
          rfl
      · obtain ⟨it, hmem, hpn⟩ := ih (i + 1) pn e h1
        refine ⟨it, ?_, hpn⟩
        simp [toBOMItems, hmem]

theorem bom_sorted_keys (m : List (PyStr × BOMEntry))
    (hnd : (m.map Prod.fst).Nodup) :
    ((List.insertionSort bomLe m).map Prod.fst).Pairwise
      (fun a b => pyStrLt a b = true) := by
  have hs : List.Sorted bomLe (List.insertionSort bomLe m) :=
    List.sorted_insertionSort bomLe m
  have hperm : List.Perm ((List.insertionSort bomLe m).map Prod.fst)
      (m.map Prod.fst) :=
    (List.perm_insertionSort bomLe m).map Prod.fst
  have hnd2 : ((List.insertionSort bomLe m).map Prod.fst).Nodup :=
    hperm.nodup_iff.mpr hnd
  have hmap : ((List.insertionSort bomLe m).map Prod.fst).Pairwise
      (fun a b => pyStrLe a b = true) :=
    List.Pairwise.map Prod.fst (fun a b h => h) hs
  have hcomb := hmap.and hnd2
  exact hcomb.imp fun h => pyStrLe_of_ne_lt h.1 h.2

/-- A concrete document: two cables of lengths 5/2 m and 1 m sharing part
number CBL-1, plus a generic part carrying the same part number (so the
generic-parts pass must skip it). -/
def c6doc : HarnessDocument :=
  { metadata := ⟨pystr "DOC-1", pystr "Demo", pystr "A", pystr "2024-01-15"⟩
    parts := [(pystr "P1",
      ⟨pystr "P1", pystr "CBL-1", pystr "Acme", pystr "C100", pystr "Cable",
       [], [], none⟩)]
    connectors := []
    cables :=
      [(pystr "W1",
        ⟨pystr "W1", pystr "CBL-1", pystr "Acme", pystr "C100", pystr "Cable",
         2, [], pystr "22 AWG", ⟨5 / 2, pystr "m"⟩, none, [], [], none, none⟩),
       (pystr "W2",
        ⟨pystr "W2", pystr "CBL-1", pystr "Acme", pystr "C100", pystr "Cable",
         2, [], pystr "22 AWG", ⟨1, pystr "m"⟩, none, [], [], none, none⟩)]
    connections := []
    accessories := []
    notes := none }

/-- C6: `_extract_bom_items` emits one row per distinct primary part
number occurring among connectors, cables, accessories or leftover
generic parts, in strictly ascending part-number order; each row's
quantity is one unit per connector plus the summed cable lengths plus the
summed accessory quantities, plus one unit when only a generic part
carries the number; its references comma-join the connector and cable
designators in first-seen order, with the generic part's id appearing
only when no earlier pass captured the number; in particular two cables
of lengths 5/2 m and 1 m sharing part number CBL-1 together with a
generic part of the same number yield the single row (CBL-1, 7/2). -/
theorem C6_bom_extraction (document : HarnessDocument) :
    (((extractBomItems document).map BOMItem.part_number).Nodup
      ∧ ((extractBomItems document).map BOMItem.part_number).Pairwise
          (fun a b => pyStrLt a b = true))
    ∧ (∀ p : PyStr,
        (∃ it, it ∈ extractBomItems document ∧ it.part_number = p)
          ↔ (bomCapturedEarly document p || hasPartPn document.parts p) = true)
    ∧ (∀ it, it ∈ extractBomItems document →
        it.quantity
            = (connectorPnCount document.connectors it.part_number : ℚ)
              + cableLenSum document.cables it.part_number
              + accessoryQtySum document.accessories it.part_number
              + (if bomPartFresh document it.part_number then 1 else 0)
          ∧ it.reference
            = joinComma (connectorRefs document.connectors it.part_number
                ++ cableRefs document.cables it.part_number
                ++ (if bomCapturedEarly document it.part_number then []
                    else partFirstRef document.parts it.part_number)))
    ∧ ((extractBomItems c6doc).map fun it => (it.part_number, it.quantity))
        = [(pystr "CBL-1", 7 / 2)] := by
  have hnd := bomAccum_nodup document
  have hperm := List.perm_insertionSort bomLe (bomAccum document)
  have hE : extractBomItems document
      = toBOMItems 1 (List.insertionSort bomLe (bomAccum document)) := rfl
  refine ⟨⟨?_, ?_⟩, ?_, ?_, ?_⟩
  · rw [hE, toBOMItems_map_pn]
    exact (hperm.map Prod.fst).nodup_iff.mpr hnd
  · rw [hE, toBOMItems_map_pn]
    exact bom_sorted_keys _ hnd
  · intro p
    constructor
    · rintro ⟨it, hit, rfl⟩
      rw [hE] at hit
      obtain ⟨e, hm, _, _, _⟩ := toBOMItems_mem _ 1 it hit
      have hm2 : (it.part_number, e) ∈ bomAccum document := hperm.subset hm
      have hs : (dictGet? (bomAccum document) it.part_number).isSome = true :=
        (dictGet?_isSome_iff_mem _ _).mpr ⟨e, hm2⟩
      rw [bomAccum_present] at hs
      exact hs
    · intro hp
      have hs : (dictGet? (bomAccum document) p).isSome = true := by
        rw [bomAccum_present]
        exact hp
      obtain ⟨e, hm⟩ := (dictGet?_isSome_iff_mem _ _).mp hs
      have hm2 : (p, e) ∈ List.insertionSort bomLe (bomAccum document) :=
        hperm.symm.subset hm
      obtain ⟨it, hit, hpn⟩ := toBOMItems_exists _ 1 p e hm2
      refine ⟨it, ?_, hpn⟩
      rw [hE]
      exact hit
  · intro it hit
    rw [hE] at hit
    obtain ⟨e, hm, hq, hu, hr⟩ := toBOMItems_mem _ 1 it hit
    have hm2 : (it.part_number, e) ∈ bomAccum document := hperm.subset hm
    have hget : dictGet? (bomAccum document) it.part_number = some e :=
      dictGet?_of_mem_nodup _ _ _ hm2 hnd
    have hq2 : accQty (bomAccum document) it.part_number = e.quantity := by
      simp [accQty, hget]
    have hr2 : accRefs (bomAccum document) it.part_number = e.references := by
      simp [accRefs, hget]
    constructor
    · rw [hq, ← hq2, bomAccum_qty]
    · rw [hr, ← hr2, bomAccum_refs]
  · have h : ((extractBomItems c6doc).map fun it => (it.part_number, it.quantity))
        = [(pystr "CBL-1", (0 : ℚ) + 5 / 2 + 1)] := rfl
    have h2 : (0 : ℚ) + 5 / 2 + 1 = 7 / 2 := by norm_num
    rw [h, h2]

/-- Witness: the concrete two-cables-one-part scenario evaluated through
the extraction pipeline. -/
theorem C6_witness :
    ((extractBomItems c6doc).map fun it => (it.part_number, it.quantity))
      = [(pystr "CBL-1", 7 / 2)] :=
  (C6_bom_extraction c6doc).2.2.2

end WirevizDoc
